import Mathlib

/-!
Shallow embedding of the senpai IRC session core (src/irc/session.go) and
proofs about it.  Go strings are modelled as lists of bytes (`GoStr`), Go
maps as association lists with first-match lookup, wall-clock instants as
integers (nanoseconds, like Go's `time.Time`/`time.Duration`), and the
`chan Message` output as an accumulated list of outbound messages.  Code
of the repository that is not part of src/irc/session.go (the `Message`
model, casemapping helpers, the parsing helpers of the irc package and
the external `golang.org/x/time/rate` limiter) is modelled from the
specification; each such definition carries a doc comment saying so.
-/

set_option autoImplicit false

namespace Senpai

/-- A Go string: a list of bytes. -/
abbrev GoStr := List Nat

/-- Bytes of an ASCII Lean string literal (used only for ASCII text). -/
def gs (s : String) : GoStr := s.data.map Char.toNat

/-- First-match lookup in an association list (Go map read `m[k]`). -/
def lookupA {K V : Type} [DecidableEq K] (k : K) : List (K × V) → Option V
  | [] => none
  | (k', v) :: rest => if k' = k then some v else lookupA k rest

/-- Go map write `m[k] = v`: replace the first binding of `k`, or append. -/
def insertA {K V : Type} [DecidableEq K] (k : K) (v : V) : List (K × V) → List (K × V)
  | [] => [(k, v)]
  | (k', v') :: rest => if k' = k then (k, v) :: rest else (k', v') :: insertA k v rest

/-- Go `delete(m, k)`: remove every binding of `k`. -/
def eraseA {K V : Type} [DecidableEq K] (k : K) : List (K × V) → List (K × V)
  | [] => []
  | (k', v') :: rest => if k' = k then eraseA k rest else (k', v') :: eraseA k rest

@[simp] theorem lookupA_nil {K V : Type} [DecidableEq K] (k : K) :
    lookupA (V := V) k [] = none := rfl

@[simp] theorem lookupA_cons {K V : Type} [DecidableEq K] (k k' : K) (v : V)
    (m : List (K × V)) :
    lookupA k ((k', v) :: m) = if k' = k then some v else lookupA k m := rfl

theorem lookupA_insertA_self {K V : Type} [DecidableEq K] (k : K) (v : V)
    (m : List (K × V)) : lookupA k (insertA k v m) = some v := by
  induction m with
  | nil => simp [insertA]
  | cons p rest ih =>
    obtain ⟨k', v'⟩ := p
    by_cases h : k' = k <;> simp [insertA, h, ih]

theorem lookupA_insertA_ne {K V : Type} [DecidableEq K] (k k' : K) (v : V)
    (m : List (K × V)) (h : k' ≠ k) :
    lookupA k (insertA k' v m) = lookupA k m := by
  induction m with
  | nil => simp [insertA, h]
  | cons p rest ih =>
    obtain ⟨k'', v''⟩ := p
    by_cases h2 : k'' = k' <;> by_cases h3 : k'' = k <;>
      simp_all [insertA]

theorem lookupA_eraseA_self {K V : Type} [DecidableEq K] (k : K)
    (m : List (K × V)) : lookupA k (eraseA k m) = none := by
  induction m with
  | nil => simp [eraseA]
  | cons p rest ih =>
    obtain ⟨k', v'⟩ := p
    by_cases h : k' = k <;> simp [eraseA, h, ih]

theorem lookupA_eraseA_ne {K V : Type} [DecidableEq K] (k k' : K)
    (m : List (K × V)) (h : k' ≠ k) :
    lookupA k (eraseA k' m) = lookupA k m := by
  induction m with
  | nil => simp [eraseA]
  | cons p rest ih =>
    obtain ⟨k'', v''⟩ := p
    by_cases h2 : k'' = k' <;> by_cases h3 : k'' = k <;>
      simp_all [eraseA]

/-- Set membership used for Go `map[string]struct{}` sets. -/
def memS (k : GoStr) (s : List GoStr) : Bool := decide (k ∈ s)

/-- Set insert (only called when absent in the code paths we model). -/
def insertS (k : GoStr) (s : List GoStr) : List GoStr :=
  if memS k s then s else s ++ [k]

/-- Set removal. -/
def eraseS (k : GoStr) (s : List GoStr) : List GoStr := s.filter (· ≠ k)

@[simp] theorem memS_insertS_self (k : GoStr) (s : List GoStr) :
    memS k (insertS k s) = true := by
  by_cases h : memS k s <;> simp_all [insertS, memS]

@[simp] theorem memS_eraseS_self (k : GoStr) (s : List GoStr) :
    memS k (eraseS k s) = false := by
  simp only [memS, eraseS, decide_eq_false_iff_not]
  intro h
  simpa using (List.of_mem_filter h)

theorem memS_eraseS_ne (k k' : GoStr) (s : List GoStr) (h : k' ≠ k) :
    memS k (eraseS k' s) = memS k s := by
  simp only [memS, eraseS, decide_eq_decide]
  constructor <;> intro hm
  · exact List.mem_of_mem_filter hm
  · exact List.mem_filter_of_mem hm (by simpa using fun hk => h hk.symm)

/-! ## String helpers mirroring the Go standard library calls in session.go. -/

/-- `strings.SplitN(s, sep, n)` for a single-byte separator and `n ≥ 1`:
at most `n` pieces, the last piece keeping the remainder unsplit. -/
def goSplitN (sep : Nat) : Nat → GoStr → List GoStr
  | 0, s => [s]
  | 1, s => [s]
  | n + 2, s =>
    match s.findIdx? (· = sep) with
    | none => [s]
    | some i => s.take i :: goSplitN sep (n + 1) (s.drop (i + 1))

/-- `strings.Split(s, sep)` for a single-byte separator: split at every
occurrence. -/
def goSplitAllAux (sep : Nat) : Nat → GoStr → List GoStr
  | 0, s => [s]
  | fuel + 1, s =>
    match s.findIdx? (· = sep) with
    | none => [s]
    | some i => s.take i :: goSplitAllAux sep fuel (s.drop (i + 1))

/-- `strings.Split(s, sep)` for a single-byte separator: split at every
occurrence; each split step strips at least one byte, so `s.length + 1`
fuel always suffices. -/
def goSplitAll (sep : Nat) (s : GoStr) : List GoStr :=
  goSplitAllAux sep (s.length + 1) s

/-- `strings.Join(xs, " ")`. -/
def goJoinSpace (xs : List GoStr) : GoStr :=
  match xs with
  | [] => []
  | [x] => x
  | x :: rest => x ++ [32] ++ goJoinSpace rest

/-- Modelled from the spec: `strings.ToUpper`, restricted to its ASCII
behaviour (the ISUPPORT keys the code compares against are all ASCII). -/
def goToUpper (s : GoStr) : GoStr :=
  s.map fun b => if 97 ≤ b ∧ b ≤ 122 then b - 32 else b

/-- `strings.IndexByte(s, b)`: index of the first occurrence, or -1. -/
def goIndexByte (s : GoStr) (b : Nat) : Int :=
  match s.findIdx? (· = b) with
  | none => -1
  | some i => (i : Int)

/-- `strconv.Atoi`: optional sign, at least one digit, nothing else, and
the value must fit in a signed 64-bit integer. -/
def goAtoi (s : GoStr) : Except Unit Int :=
  let (neg, digits) :=
    match s with
    | 45 :: rest => (true, rest)
    | 43 :: rest => (false, rest)
    | _ => (false, s)
  if digits = [] then .error ()
  else if digits.all (fun b => 48 ≤ b ∧ b ≤ 57) then
    let n : Nat := digits.foldl (fun acc b => acc * 10 + (b - 48)) 0
    let v : Int := if neg then -(n : Int) else (n : Int)
    if -(2 ^ 63 : Int) ≤ v ∧ v < 2 ^ 63 then .ok v else .error ()
  else .error ()

/-- `strconv.ParseInt(s, 10, 64)` with the error ignored: Go returns 0 on
error, which is what the topic-time handler uses. -/
def goParseIntD (s : GoStr) : Int := (goAtoi s).toOption.getD 0

/-! ## Spec-modelled collaborators (code of the repository not under src/). -/

/-- A message sender or parsed `nick!user@host` mask (`irc.Prefix` in the
repository; renamed to avoid a reserved word). -/
structure Pfx where
  name : GoStr
  user : GoStr
  host : GoStr
deriving DecidableEq

/-- Modelled from the spec: `irc.ParsePrefix`, the parser for
`nick!user@host` masks (defined in the repository's message module, which
is not under src/).  It returns nil only for an empty string; otherwise
the nick is everything up to the first `!`, the user up to the following
`@`, the host the rest. -/
def parseSender (s : GoStr) : Option Pfx :=
  if s = [] then none
  else
    match goSplitN 33 2 s with
    | [n] => some ⟨n, [], []⟩
    | [n, uh] =>
      match goSplitN 64 2 uh with
      | [u] => some ⟨n, u, []⟩
      | [u, h] => some ⟨n, u, h⟩
      | _ => some ⟨n, [], []⟩
    | _ => some ⟨s, [], []⟩

/-- Errors surfaced by the message handlers. -/
inductive GoErr
  /-- `msg.errNotEnoughParams(n)`: fewer positional parameters than the
  handler requires. -/
  | notEnoughParams (n : Nat)
  /-- `errMissingPrefix`: a required sender prefix is absent. -/
  | missingSender
  /-- `fmt.Errorf("empty batch id")`. -/
  | emptyBatchId
  /-- An error returned by `ParseChannelMode`. -/
  | badMode
deriving DecidableEq

/-- An inbound or outbound protocol message (`irc.Message`; modelled from
the spec: command, ordered parameters, optional sender, tag map, and an
extractable timestamp defaulting to now when absent). -/
structure Msg where
  tags : List (GoStr × GoStr)
  sender : Option Pfx
  command : GoStr
  params : List GoStr
  time? : Option Int
deriving DecidableEq

/-- `irc.NewMessage(cmd, params...)`. -/
def newMsg (command : GoStr) (params : List GoStr) : Msg :=
  ⟨[], none, command, params, none⟩

/-- `msg.WithTag(k, v)`. -/
def Msg.withTag (m : Msg) (k v : GoStr) : Msg :=
  { m with tags := insertA k v m.tags }

/-- `msg.TimeOrNow()`. -/
def Msg.timeOrNow (m : Msg) (now : Int) : Int := m.time?.getD now

/-- Modelled from the spec: `msg.ParseParams` — "parse N expected
positional parameters ... fails when fewer parameters are present than
required".  The handlers then read the (guaranteed present) parameters
positionally. -/
def Msg.parseParams (m : Msg) (n : Nat) : Except GoErr Unit :=
  if m.params.length < n then .error (.notEnoughParams n) else .ok ()

/-- Parameter access after a successful `parseParams` (total, defaulting
to the empty string on the unreachable out-of-range case). -/
def Msg.p (m : Msg) (i : Nat) : GoStr := m.params.getD i []

/-- `msg.IsReply()`: the command is a three-digit numeric. -/
def Msg.isReply (m : Msg) : Bool :=
  m.command.length = 3 && m.command.all (fun b => 48 ≤ b ∧ b ≤ 57)

/-- Modelled from the spec: the casemapping rules ("`ascii` → ASCII rule,
anything else → RFC1459 rule"); the rule functions themselves live in the
repository's states module, which is not under src/.  The session stores
which rule is active. -/
inductive CasemapRule
  | ascii
  | rfc1459
deriving DecidableEq

/-- Modelled from the spec: `CasemapASCII` lowercases A–Z; `CasemapRFC1459`
additionally folds the bytes `[ \ ]` to `{ | \x7d` and `~` to `^`. -/
def applyCasemap : CasemapRule → GoStr → GoStr
  | .ascii, s => s.map fun b => if 65 ≤ b ∧ b ≤ 90 then b + 32 else b
  | .rfc1459, s => s.map fun b =>
      if 65 ≤ b ∧ b ≤ 90 then b + 32
      else if b = 91 then 123
      else if b = 92 then 124
      else if b = 93 then 125
      else if b = 126 then 94
      else b

/-- One capability token of a `CAP` line. -/
structure CapTok where
  name : GoStr
  value : GoStr
  enable : Bool
deriving DecidableEq

/-- Modelled from the spec: `irc.ParseCaps`, the parser for space-separated
capability lists; a leading `-` marks a disabled capability and a `=`
separates a name from its value. -/
def parseCaps (caps : GoStr) : List CapTok :=
  (goSplitAll 32 caps).filterMap fun w =>
    if w = [] then none
    else
      let (enable, w) := match w with
        | 45 :: rest => (false, rest)
        | _ => (true, w)
      match goSplitN 61 2 w with
      | [n] => some ⟨n, [], enable⟩
      | [n, v] => some ⟨n, v, enable⟩
      | _ => none

/-- One parsed entry of a NAMES reply. -/
structure NameEntry where
  powerLevel : GoStr
  who : Pfx
deriving DecidableEq

/-- Modelled from the spec: `irc.ParseNameReply` — "names are parsed
against the current membership-prefix symbol table into (user,
power-level) pairs". -/
def parseNameReply (names symbols : GoStr) : List NameEntry :=
  (goSplitAll 32 names).filterMap fun w =>
    let pl := w.takeWhile (fun b => decide (b ∈ symbols))
    let rest := w.dropWhile (fun b => decide (b ∈ symbols))
    match parseSender rest with
    | none => none
    | some who => some ⟨pl, who⟩

/-- One channel-mode change parsed out of a MODE message. -/
structure ModeChange where
  mode : Nat
  enable : Bool
  param : GoStr
deriving DecidableEq

/-- Modelled from the spec: `irc.ParseChannelMode` — "parse mode letters
against the 4 channel-mode classes and the membership-prefix mode-letter
table"; a missing required argument is an error. -/
def parseChannelMode (modes : GoStr) (args : List GoStr)
    (chanmodes : GoStr × GoStr × GoStr × GoStr) (prefixModes : GoStr) :
    Except GoErr (List ModeChange) :=
  go modes args true []
where
  go : GoStr → List GoStr → Bool → List ModeChange → Except GoErr (List ModeChange)
    | [], _, _, acc => .ok acc.reverse
    | 43 :: rest, args, _, acc => go rest args true acc
    | 45 :: rest, args, _, acc => go rest args false acc
    | m :: rest, args, enable, acc =>
      let needsArg :=
        decide (m ∈ prefixModes) || decide (m ∈ chanmodes.1) ||
        decide (m ∈ chanmodes.2.1) || (enable && decide (m ∈ chanmodes.2.2.1))
      if needsArg then
        match args with
        | [] => .error .badMode
        | a :: args' => go rest args' enable (⟨m, enable, a⟩ :: acc)
      else go rest args enable (⟨m, enable, []⟩ :: acc)

/-- Modelled from the spec: `parseTimestamp` accepts the server timestamp
format and fails otherwise; we model the value as the folded digits and
reject the empty string. -/
def parseTimestamp (s : GoStr) : Option Int :=
  if s = [] then none
  else some ((s.foldl (fun acc b => acc * 256 + b) 0 : Nat) : Int)

/-- Modelled from the spec: `parseTags`, the `k=v;k=v` tag-string parser
used by the BOUNCER handler. -/
def parseTagsStr (s : GoStr) : List (GoStr × GoStr) :=
  (goSplitAll 59 s).filterMap fun w =>
    match goSplitN 61 2 w with
    | [k, v] => some (k, v)
    | _ => none

/-- Event severities. -/
inductive Severity
  | fail
  | warn
  | note
deriving DecidableEq

/-- Modelled from the spec: `ReplySeverity` classifies a numeric reply;
4xx/5xx numerics are failures, the rest notes. -/
def replySeverity (command : GoStr) : Severity :=
  match command with
  | 52 :: _ => .fail
  | 53 :: _ => .fail
  | _ => .note

/-! ## Data model (src/irc/session.go). -/

/-- Values of the `+typing` client tag (`TypingUnspec` …). -/
def typingUnspec : Nat := 0
/-- `TypingActive`. -/
def typingActive : Nat := 1
/-- `TypingPaused`. -/
def typingPaused : Nat := 2
/-- `TypingDone`. -/
def typingDone : Nat := 3

/-- A known IRC user (`irc.User`).  Go shares `*User` pointers between the
roster and the channel member maps; we model the pointers as numeric ids
into a heap, and this structure is the pointee. -/
structure User where
  name : Pfx
  away : Bool
  disconnected : Bool
deriving DecidableEq

/-- A joined channel (`irc.Channel`).  `members` maps user ids (the
`*User` pointers) to membership strings. -/
structure Channel where
  name : GoStr
  members : List (Nat × GoStr)
  topic : GoStr
  topicWho : Option Pfx
  topicTime : Int
  complete : Bool
deriving DecidableEq

/-- High-level events returned by the dispatcher (the `irc.Event` union).
History/search aggregates carry their accumulated sub-events. -/
inductive Event
  | registered
  | selfNick (formerNick : GoStr)
  | userNick (user formerNick : GoStr) (time : Int)
  | selfJoin (channel : GoStr) (requested : Bool) (topic : GoStr)
  | userJoin (user channel : GoStr) (time : Int)
  | selfPart (channel : GoStr)
  | userPart (user channel : GoStr) (time : Int)
  | userQuit (user : GoStr) (channels : List GoStr) (time : Int)
  | topicChange (channel topic : GoStr) (time : Int)
  | modeChange (channel mode : GoStr) (time : Int)
  | invite (inviter invitee channel : GoStr)
  | userOnline (user : GoStr)
  | userOffline (user : GoStr)
  | message (user target command content : GoStr) (targetIsChannel : Bool) (time : Int)
  | history (target : GoStr) (messages : List Event)
  | historyTargets (targets : List (GoStr × Int))
  | searchResults (messages : List Event)
  | readMarker (target : GoStr) (timestamp : Int)
  | bouncerNetwork (id name : GoStr)
  | errorEv (severity : Severity) (code message : GoStr)

/-- A `HistoryEvent` being accumulated (`Target` plus its messages). -/
structure HistoryAcc where
  target : GoStr
  messages : List Event

/-- The per-target typing stamp.  The Go stamp holds a `*rate.Limiter`;
we model the limiter object by the number of `Allow`/`Reserve` calls it
has absorbed (its decisions are supplied by an external oracle, see
`Env`). -/
structure TypingStamp where
  last : Int
  type : Nat
  limCount : Nat
deriving DecidableEq

/-- Decisions of everything external to the session that the code
consults: the `rate.Limiter` answers (`golang.org/x/time/rate`, keyed by
casemapped target and call count) and the SASL authenticator. -/
structure Env where
  limiterAllow : GoStr → Nat → Bool
  authRespond : GoStr → Except Unit GoStr
  authMech : GoStr

/-- The session state (`irc.Session`).  The `out` channel is modelled by
returning the list of sent messages from each operation; `typings`
(incoming typing notifications, a module not under src/) is modelled from
the spec as the set of (target, nick) pairs currently typing. -/
structure Session where
  closed : Bool
  registered : Bool
  typings : List (GoStr × GoStr)
  typingStamps : List (GoStr × TypingStamp)
  nick : GoStr
  nickCf : GoStr
  user : GoStr
  real : GoStr
  acct : GoStr
  host : GoStr
  netID : GoStr
  authPresent : Bool
  availableCaps : List (GoStr × GoStr)
  enabledCaps : List GoStr
  casemap : CasemapRule
  chanmodes : GoStr × GoStr × GoStr × GoStr
  chantypes : GoStr
  linelen : Int
  historyLimit : Int
  prefixSymbols : GoStr
  prefixModes : GoStr
  monitor : Bool
  users : List (GoStr × Nat)
  heap : List (Nat × User)
  nextId : Nat
  channels : List (GoStr × Channel)
  chBatches : List (GoStr × HistoryAcc)
  chReqs : List GoStr
  targetsBatchID : GoStr
  targetsBatch : List (GoStr × Int)
  searchBatchID : GoStr
  searchBatch : List Event
  monitors : List GoStr
  pendingChannels : List (GoStr × Int)

/-- `s.Casemap` / `s.casemap(...)`. -/
def Session.cm (s : Session) (name : GoStr) : GoStr := applyCasemap s.casemap name

/-- `s.HasCapability(c)`. -/
def Session.hasCapability (s : Session) (c : GoStr) : Bool := memS c s.enabledCaps

/-- `s.IsMe(nick)`. -/
def Session.isMe (s : Session) (nick : GoStr) : Bool := s.nickCf = s.cm nick

/-- The field state produced by `NewSession` (the outbound registration
commands are irrelevant to the claims and omitted). -/
def initSession (nickname username realName netID : GoStr) (auth : Bool) : Session where
  closed := false
  registered := false
  typings := []
  typingStamps := []
  nick := nickname
  nickCf := applyCasemap .ascii nickname
  user := username
  real := realName
  acct := []
  host := []
  netID := netID
  authPresent := auth
  availableCaps := []
  enabledCaps := []
  casemap := .rfc1459
  chanmodes := ([], [], [], [])
  chantypes := gs "#&"
  linelen := 512
  historyLimit := 100
  prefixSymbols := gs "@+"
  prefixModes := gs "ov"
  monitor := false
  users := []
  heap := []
  nextId := 0
  channels := []
  chBatches := []
  chReqs := []
  targetsBatchID := []
  targetsBatch := []
  searchBatchID := []
  searchBatch := []
  monitors := []
  pendingChannels := []

/-! ## Outbound operations (session façade methods). -/

/-- `Session.Join(channel, key)`: records the pending-join stamp and sends
the JOIN command. -/
def Session.join (s : Session) (channel key : GoStr) (now : Int) :
    Session × List Msg :=
  let channelCf := s.cm channel
  let s := { s with pendingChannels := insertA channelCf now s.pendingChannels }
  if key = [] then (s, [newMsg (gs "JOIN") [channel]])
  else (s, [newMsg (gs "JOIN") [channel, key]])

/-- `splitChunks` outcomes: a result list, divergence of the Go loop, or a
runtime panic (negative index / out-of-range slice). -/
inductive SplitRes
  | ok (chunks : List GoStr)
  | diverges
  | crashes
deriving DecidableEq

/-- `utf8.RuneStart(b)`: `b&0xC0 != 0x80`. -/
def runeStart (b : Nat) : Bool := b &&& 0xC0 != 0x80

/-- The inner scan of `splitChunks`: `i := chunkLen; for min <= i &&
!utf8.RuneStart(s[i]) { i-- }`.  Indexing a negative position (or, per
Go semantics, any out-of-range position) is a panic, reported as an
error. -/
def splitIdxLoop (s : GoStr) (min : Int) : Nat → Int → Except Unit Int
  | 0, i => .ok i
  | fuel + 1, i =>
    if min ≤ i then
      if i < 0 then .error ()
      else
        match s.get? i.toNat with
        | none => .error ()
        | some b => if runeStart b then .ok i else splitIdxLoop s min fuel (i - 1)
    else .ok i

/-- The outer loop of `splitChunks`.  A split index of 0 makes the Go
loop cut an empty chunk forever (divergence); a negative split index
makes `s[:i]` panic. -/
def splitChunksLoop (chunkLen : Int) : Nat → GoStr → SplitRes
  | 0, _ => .diverges
  | fuel + 1, s =>
    if chunkLen < (s.length : Int) then
      match splitIdxLoop s (chunkLen - 4) 8 chunkLen with
      | .error _ => .crashes
      | .ok i =>
        if i < 0 then .crashes
        else if i = 0 then .diverges
        else
          match splitChunksLoop chunkLen fuel (s.drop i.toNat) with
          | .ok rest => .ok (s.take i.toNat :: rest)
          | r => r
    else if s.length ≠ 0 then .ok [s] else .ok []

/-- `splitChunks(s, chunkLen)` (src/irc/session.go:378).  `utf8.UTFMax`
is 4, so the scan window is `chunkLen-4 ≤ i ≤ chunkLen` and never needs
more than 8 fuel; the outer loop strips at least one byte per iteration,
so `s.length + 1` fuel is exact. -/
def splitChunks (s : GoStr) (chunkLen : Int) : SplitRes :=
  if chunkLen ≤ 0 then .ok [s]
  else splitChunksLoop chunkLen (s.length + 1) s

/-- A UTF-8 continuation byte (`10xxxxxx`). -/
def isCont (b : Nat) : Bool := 128 ≤ b && b < 192

/-- Structural UTF-8 validity of a byte string, as a one-pass scanner:
`utf8ValidK k s` holds when `s` begins with `k` continuation bytes and the
remainder is a sequence of well-formed one- to four-byte encodings (lead
byte in the proper range followed by the right number of continuation
bytes).  This byte-level structure is exactly what the chunk boundaries of
`splitChunks` are measured against. -/
def utf8ValidK : Nat → GoStr → Bool
  | 0, [] => true
  | 0, b :: rest =>
    if b < 128 then utf8ValidK 0 rest
    else if 192 ≤ b ∧ b < 224 then utf8ValidK 1 rest
    else if 224 ≤ b ∧ b < 240 then utf8ValidK 2 rest
    else if 240 ≤ b ∧ b < 248 then utf8ValidK 3 rest
    else false
  | _ + 1, [] => false
  | k + 1, b :: rest => isCont b && utf8ValidK k rest

/-- A byte string is valid UTF-8 when the scanner accepts it from the
start state. -/
def utf8Valid (s : GoStr) : Bool := utf8ValidK 0 s

/-- A single well-formed UTF-8 character encoding, as a byte list. -/
inductive IsChar : GoStr → Prop
  | one (b : Nat) : b < 128 → IsChar [b]
  | two (b c1 : Nat) : 192 ≤ b → b < 224 → isCont c1 = true → IsChar [b, c1]
  | three (b c1 c2 : Nat) : 224 ≤ b → b < 240 → isCont c1 = true →
      isCont c2 = true → IsChar [b, c1, c2]
  | four (b c1 c2 c3 : Nat) : 240 ≤ b → b < 248 → isCont c1 = true →
      isCont c2 = true → isCont c3 = true → IsChar [b, c1, c2, c3]

/-- A byte string that is a concatenation of well-formed UTF-8 characters. -/
inductive Utf8V : GoStr → Prop
  | nil : Utf8V []
  | cons (c rest : GoStr) : IsChar c → Utf8V rest → Utf8V (c ++ rest)

/-- `Session.PrivMsg(target, content)`. -/
def Session.privMsg (s : Session) (target content : GoStr) :
    Session × List Msg × SplitRes :=
  let hostLen : Int := if s.host.length = 0 then 15 else (s.host.length : Int)
  let maxMessageLen : Int := s.linelen - 16 - (s.nick.length : Int) -
    (s.user.length : Int) - hostLen - (target.length : Int)
  match splitChunks content maxMessageLen with
  | .ok chunks =>
    let s := { s with typingStamps := eraseA (s.cm target) s.typingStamps }
    (s, chunks.map fun chunk => newMsg (gs "PRIVMSG") [target, chunk], .ok chunks)
  | r => (s, [], r)

/-- `Session.Typing(target)` (src/irc/session.go:416). -/
def Session.typing (env : Env) (s : Session) (target : GoStr) (now : Int) :
    Session × List Msg :=
  if ¬ s.hasCapability (gs "message-tags") then (s, [])
  else
    let targetCf := s.cm target
    match lookupA targetCf s.typingStamps with
    | some t =>
      if t.type = typingActive ∧ now - t.last < 3 * 1000000000 then (s, [])
      else
        let allowed := env.limiterAllow targetCf t.limCount
        let t' : TypingStamp := { t with limCount := t.limCount + 1 }
        if ¬ allowed then
          ({ s with typingStamps := insertA targetCf t' s.typingStamps }, [])
        else
          ({ s with typingStamps :=
              insertA targetCf ⟨now, typingActive, t'.limCount⟩ s.typingStamps },
           [(newMsg (gs "TAGMSG") [target]).withTag (gs "+typing") (gs "active")])
    | none =>
      -- fresh limiter: `rate.NewLimiter(rate.Limit(1.0/3.0), 5)` plus one
      -- `Reserve()` (always succeeds), leaving one consumed slot.
      ({ s with typingStamps :=
          insertA targetCf ⟨now, typingActive, 1⟩ s.typingStamps },
       [(newMsg (gs "TAGMSG") [target]).withTag (gs "+typing") (gs "active")])

/-- `Session.TypingStop(target)` (src/irc/session.go:438). -/
def Session.typingStop (env : Env) (s : Session) (target : GoStr) (now : Int) :
    Session × List Msg :=
  if ¬ s.hasCapability (gs "message-tags") then (s, [])
  else
    let targetCf := s.cm target
    match lookupA targetCf s.typingStamps with
    | some t =>
      if t.type = typingDone then (s, [])
      else
        let allowed := env.limiterAllow targetCf t.limCount
        let t' : TypingStamp := { t with limCount := t.limCount + 1 }
        if ¬ allowed then
          ({ s with typingStamps := insertA targetCf t' s.typingStamps }, [])
        else
          ({ s with typingStamps :=
              insertA targetCf ⟨now, typingDone, t'.limCount⟩ s.typingStamps },
           [(newMsg (gs "TAGMSG") [target]).withTag (gs "+typing") (gs "done")])
    | none =>
      -- fresh limiter: `rate.NewLimiter(rate.Limit(1), 5)` plus one
      -- `Reserve()`.
      ({ s with typingStamps :=
          insertA targetCf ⟨now, typingDone, 1⟩ s.typingStamps },
       [(newMsg (gs "TAGMSG") [target]).withTag (gs "+typing") (gs "done")])

/-- `Session.MonitorAdd(target)`. -/
def Session.monitorAdd (s : Session) (target : GoStr) : Session × List Msg :=
  let targetCf := s.cm target
  if memS targetCf s.monitors then (s, [])
  else
    let s := { s with monitors := insertS targetCf s.monitors }
    if s.monitor then (s, [newMsg (gs "MONITOR") [gs "+", target]])
    else (s, [])

/-- `Session.MonitorRemove(target)`. -/
def Session.monitorRemove (s : Session) (target : GoStr) : Session × List Msg :=
  let targetCf := s.cm target
  if memS targetCf s.monitors then
    let s := { s with monitors := eraseS targetCf s.monitors }
    if s.monitor then (s, [newMsg (gs "MONITOR") [gs "-", target]])
    else (s, [])
  else (s, [])

/-- A fluent history request (`irc.HistoryRequest`), minus the back
pointer to the session, which Lean passes explicitly. -/
structure HistoryRequest where
  target : GoStr
  command : GoStr
  bounds : List GoStr
  limit : Int
deriving DecidableEq

/-- Decimal rendering of a non-negative limit (ASCII bytes), standing in
for `strconv.Itoa`. -/
def goItoa (n : Int) : GoStr :=
  if n < 0 then 45 :: (gs (toString (-n).toNat))
  else gs (toString n.toNat)

/-- `HistoryRequest.doRequest` (src/irc/session.go:515). -/
def doRequest (s : Session) (r : HistoryRequest) : Session × List Msg :=
  if ¬ s.hasCapability (gs "draft/chathistory") then (s, [])
  else
    let targetCf := s.cm r.target
    if memS targetCf s.chReqs then (s, [])
    else
      let s := { s with chReqs := insertS targetCf s.chReqs }
      let args := [r.command] ++ (if r.target ≠ [] then [r.target] else []) ++
        r.bounds ++ [goItoa r.limit]
      (s, [newMsg (gs "CHATHISTORY") args])

/-- `Session.cleanUser(parted)` (src/irc/session.go:1414): delete the
user's roster entry unless it is monitored or still a member of some
channel.  `uid` is the `*User` pointer. -/
def Session.cleanUser (s : Session) (uid : Nat) : Session :=
  match lookupA uid s.heap with
  | none => s
  | some parted =>
    let nameCf := s.cm parted.name.name
    if memS nameCf s.monitors then s
    else if s.channels.any (fun c => (lookupA uid c.2.members).isSome) then s
    else { s with users := eraseA nameCf s.users }

/-! ## ISUPPORT feature application (`Session.updateFeatures`,
src/irc/session.go:1427). -/

/-- One iteration of the `updateFeatures` loop.  `none` models a runtime
panic: for an empty `PREFIX` value the code computes `numPrefixes = -1`
and evaluates `value[1:0]`, which is out of range. -/
def updateFeaturesStep (s : Session) (f : GoStr) : Option Session :=
  if f = [] ∨ f = [45] ∨ f = [61] ∨ f = [45, 61] then some s
  else
    let (add, f) := match f with
      | 45 :: rest => (false, rest)
      | _ => (true, f)
    let kv := goSplitN 61 2 f
    let key := goToUpper (kv.getD 0 [])
    let value := if 1 < kv.length then kv.getD 1 [] else []
    if ¬ add then some s
    else if key = gs "BOUNCER_NETID" then some { s with netID := value }
    else if key = gs "CASEMAPPING" then
      if value = gs "ascii" then some { s with casemap := .ascii }
      else some { s with casemap := .rfc1459 }
    else if key = gs "CHANMODES" then
      let types := goSplitN 44 5 value
      let t0 := if 0 < types.length then types.getD 0 [] else s.chanmodes.1
      let t1 := if 1 < types.length then types.getD 1 [] else s.chanmodes.2.1
      let t2 := if 2 < types.length then types.getD 2 [] else s.chanmodes.2.2.1
      let t3 := if 3 < types.length then types.getD 3 [] else s.chanmodes.2.2.2
      some { s with chanmodes := (t0, t1, t2, t3) }
    else if key = gs "CHANTYPES" then some { s with chantypes := value }
    else if key = gs "CHATHISTORY" then
      match goAtoi value with
      | .ok n => some { s with historyLimit := n }
      | .error _ => some s
    else if key = gs "LINELEN" then
      match goAtoi value with
      | .ok n => if n ≠ 0 then some { s with linelen := n } else some s
      | .error _ => some s
    else if key = gs "MONITOR" then
      match goAtoi value with
      | .ok n => if 0 < n then some { s with monitor := true } else some s
      | .error _ => some s
    else if key = gs "PREFIX" then
      let s := if value = [] then
        { s with prefixModes := [], prefixSymbols := [] } else s
      if value.length % 2 ≠ 0 then some s
      else if value.any (fun b => 127 < b) then some s
      else
        let numPrefixes : Int := (value.length : Int) / 2 - 1
        if 1 ≤ numPrefixes + 1 ∧ numPrefixes + 2 ≤ (value.length : Int) then
          some { s with
            prefixModes := (value.take (numPrefixes + 1).toNat).drop 1,
            prefixSymbols := value.drop (numPrefixes + 2).toNat }
        else none
    else some s

/-- `Session.updateFeatures(features)`: apply each token in order; a panic
in any step aborts the whole call. -/
def updateFeatures (s : Session) : List GoStr → Option Session
  | [] => some s
  | f :: rest =>
    match updateFeaturesStep s f with
    | none => none
    | some s' => updateFeatures s' rest

/-! ## The registered-message dispatcher (`Session.handleMessageRegistered`,
src/irc/session.go:640). -/

/-- Outcome of one handler run: a (possibly absent) event, a returned
error, or a runtime panic. -/
inductive HOut
  | ok (ev : Option Event)
  | errOut (e : GoErr)
  | crashed

/-- Handler result: the state after the call, the messages pushed onto
the output channel, and the outcome. -/
abbrev HRes := Session × List Msg × HOut

/-- `Session.Close()`: idempotent close (the typings/out-channel teardown
has no observable state besides the flag). -/
def Session.closeS (s : Session) : Session :=
  if s.closed then s else { s with closed := true }

/-- `Session.endRegistration()` (src/irc/session.go:1511). -/
def Session.endRegistration (s : Session) : Session × List Msg :=
  if s.registered then (s, [])
  else if s.netID ≠ [] then
    (s, [newMsg (gs "BOUNCER") [gs "BIND", s.netID], newMsg (gs "CAP") [gs "END"]])
  else
    (s, [newMsg (gs "CAP") [gs "END"], newMsg (gs "BOUNCER") [gs "LISTNETWORKS"]])

/-- The capabilities this client supports (`SupportedCapabilities`). -/
def supportedCapabilities : List GoStr :=
  [gs "away-notify", gs "batch", gs "cap-notify", gs "echo-message",
   gs "invite-notify", gs "message-tags", gs "multi-prefix", gs "server-time",
   gs "sasl", gs "setname", gs "draft/chathistory", gs "draft/event-playback",
   gs "soju.im/bouncer-networks", gs "soju.im/read", gs "soju.im/search"]

/-- Incoming-typing tracker `Typings.Active` (modelled from the spec). -/
def typingsActive (s : Session) (targetCf nickCf : GoStr) : Session :=
  if (targetCf, nickCf) ∈ s.typings then s
  else { s with typings := s.typings ++ [(targetCf, nickCf)] }

/-- Incoming-typing tracker `Typings.Done` (modelled from the spec). -/
def typingsDone (s : Session) (targetCf nickCf : GoStr) : Session :=
  { s with typings := s.typings.filter (· ≠ (targetCf, nickCf)) }

/-- The `AUTHENTICATE` case. -/
def caseAuthenticate (env : Env) (s : Session) (msg : Msg) : HRes :=
  if ¬ s.authPresent then (s, [], .ok none)
  else
    match msg.parseParams 1 with
    | .error e => (s, [], .errOut e)
    | .ok _ =>
      match env.authRespond (msg.p 0) with
      | .error _ => (s, [newMsg (gs "AUTHENTICATE") [gs "*"]], .ok none)
      | .ok res => (s, [newMsg (gs "AUTHENTICATE") [res]], .ok none)

/-- The `rplLoggedin` (900) case. -/
def caseLoggedin (s : Session) (msg : Msg) : HRes :=
  match msg.parseParams 3 with
  | .error e => (s, [], .errOut e)
  | .ok _ =>
    match parseSender (msg.p 1) with
    | none => (s, [], .crashed)
    | some p =>
      ({ s with acct := msg.p 2, user := p.user, host := p.host }, [], .ok none)

/-- The SASL-failure numerics case (902, 904–908). -/
def caseSaslFail (s : Session) (msg : Msg) : HRes :=
  match msg.params with
  | [] => (s, [], .crashed)
  | _ =>
    let (s, out) := if s.authPresent then s.endRegistration else (s, [])
    (s, out, .ok (some (.errorEv .fail msg.command
      (gs "Registration failed: " ++ goJoinSpace (msg.params.drop 1)))))

/-- The `rplWelcome` (001) case. -/
def caseWelcome (s : Session) (msg : Msg) : HRes :=
  match msg.parseParams 1 with
  | .error e => (s, [], .errOut e)
  | .ok _ =>
    let nick := msg.p 0
    let s := { s with nick := nick }
    let nickCf := s.cm nick
    let uid := s.nextId
    let s := { s with
      nickCf := nickCf
      registered := true
      users := insertA nickCf uid s.users
      heap := insertA uid ⟨⟨nick, s.user, s.host⟩, false, false⟩ s.heap
      nextId := uid + 1 }
    if s.host = [] then (s, [newMsg (gs "WHO") [s.nick]], .ok none)
    else (s, [], .ok none)

/-- The `rplIsupport` (005) case. -/
def caseIsupport (s : Session) (msg : Msg) : HRes :=
  if msg.params.length < 3 then (s, [], .errOut (.notEnoughParams 3))
  else
    match updateFeatures s ((msg.params.drop 1).take (msg.params.length - 2)) with
    | none => (s, [], .crashed)
    | some s' => (s', [], .ok (some .registered))

/-- The `rplWhoreply` (352) case. -/
def caseWhoreply (s : Session) (msg : Msg) : HRes :=
  match msg.parseParams 8 with
  | .error e => (s, [], .errOut e)
  | .ok _ =>
    let username := msg.p 2
    let host := msg.p 3
    let nick := msg.p 5
    let flags := msg.p 6
    match flags with
    | [] => (s, [], .crashed)
    | fb :: _ =>
      let nickCf := s.cm nick
      let away := fb = 71
      let s := if s.nickCf = nickCf then { s with user := username, host := host } else s
      match lookupA nickCf s.users with
      | none => (s, [], .ok none)
      | some uid =>
        match lookupA uid s.heap with
        | none => (s, [], .ok none)
        | some u =>
          ({ s with heap := insertA uid { u with away := away } s.heap }, [], .ok none)

/-- One iteration of the `CAP ACK` loop. -/
def capAckStep (env : Env) (acc : Session × List Msg) (c : CapTok) : Session × List Msg :=
  let (s, out) := acc
  let s := if c.enable then { s with enabledCaps := insertS c.name s.enabledCaps }
           else { s with enabledCaps := eraseS c.name s.enabledCaps }
  if s.authPresent ∧ c.name = gs "sasl" then
    (s, out ++ [newMsg (gs "AUTHENTICATE") [env.authMech]])
  else if s.channels ≠ [] ∧ c.name = gs "multi-prefix" then
    (s, out ++ s.channels.map fun ch => newMsg (gs "NAMES") [ch.1])
  else (s, out)

/-- One iteration of the `CAP NEW` loop. -/
def capNewStep (acc : Session × List Msg) (c : CapTok) : Session × List Msg :=
  let (s, out) := acc
  let s := { s with availableCaps := insertA c.name c.value s.availableCaps }
  if ¬ decide (c.name ∈ supportedCapabilities) then (s, out)
  else if memS c.name s.enabledCaps then (s, out)
  else (s, out ++ [newMsg (gs "CAP") [gs "REQ", c.name]])

/-- The `CAP` case. -/
def caseCap (env : Env) (s : Session) (msg : Msg) : HRes :=
  match msg.parseParams 3 with
  | .error e => (s, [], .errOut e)
  | .ok _ =>
    let subcommand := msg.p 1
    let caps := msg.p 2
    if subcommand = gs "ACK" then
      let (s, out) := (parseCaps caps).foldl (capAckStep env) (s, [])
      (s, out, .ok none)
    else if subcommand = gs "NEW" then
      let (s, out) := (parseCaps caps).foldl capNewStep (s, [])
      (s, out, .ok none)
    else if subcommand = gs "DEL" then
      let s := (parseCaps caps).foldl (fun s c =>
        { s with availableCaps := eraseA c.name s.availableCaps,
                  enabledCaps := eraseS c.name s.enabledCaps }) s
      (s, [], .ok none)
    else (s, [], .ok none)

/-- The `JOIN` case. -/
def caseJoin (s : Session) (msg : Msg) (playback : Bool) (now : Int) : HRes :=
  match msg.sender with
  | none => (s, [], .errOut .missingSender)
  | some sender =>
    match msg.parseParams 1 with
    | .error e => (s, [], .errOut e)
    | .ok _ =>
      let channel := msg.p 0
      if playback then
        (s, [], .ok (some (.userJoin sender.name channel (msg.timeOrNow now))))
      else
        let nickCf := s.cm sender.name
        let channelCf := s.cm channel
        if s.isMe nickCf then
          let newCh : Channel := ⟨msg.p 0, [], [], none, 0, false⟩
          let s := { s with channels := insertA channelCf newCh s.channels }
          if s.hasCapability (gs "away-notify") then
            (s, [newMsg (gs "WHO") [channel]], .ok none)
          else (s, [], .ok none)
        else
          match lookupA channelCf s.channels with
          | none => (s, [], .ok none)
          | some c =>
            let (s, uid) :=
              match lookupA nickCf s.users with
              | some uid => (s, uid)
              | none =>
                let uid := s.nextId
                ({ s with users := insertA nickCf uid s.users,
                           heap := insertA uid ⟨sender, false, false⟩ s.heap,
                           nextId := uid + 1 }, uid)
            let c := { c with members := insertA uid [] c.members }
            let s := { s with channels := insertA channelCf c s.channels }
            (s, [], .ok (some (.userJoin sender.name c.name (msg.timeOrNow now))))

/-- Shared by `PART` and `KICK`: remove a channel on a self part;
`cleanUser` every former member. -/
def selfPartCleanup (s : Session) (channelCf : GoStr) (c : Channel) : Session :=
  let s := { s with channels := eraseA channelCf s.channels }
  c.members.foldl (fun s m => s.cleanUser m.1) s

/-- The `PART` case. -/
def casePart (s : Session) (msg : Msg) (playback : Bool) (now : Int) : HRes :=
  match msg.sender with
  | none => (s, [], .errOut .missingSender)
  | some sender =>
    match msg.parseParams 1 with
    | .error e => (s, [], .errOut e)
    | .ok _ =>
      let channel := msg.p 0
      if playback then
        (s, [], .ok (some (.userPart sender.name channel (msg.timeOrNow now))))
      else
        let nickCf := s.cm sender.name
        let channelCf := s.cm channel
        if s.isMe nickCf then
          match lookupA channelCf s.channels with
          | none => (s, [], .ok none)
          | some c =>
            (selfPartCleanup s channelCf c, [], .ok (some (.selfPart c.name)))
        else
          match lookupA channelCf s.channels with
          | none => (s, [], .ok none)
          | some c =>
            match lookupA nickCf s.users with
            | none => (s, [], .ok none)
            | some uid =>
              let c' := { c with members := eraseA uid c.members }
              let s := { s with channels := insertA channelCf c' s.channels }
              let s := s.cleanUser uid
              let s := typingsDone s channelCf nickCf
              let userName :=
                match lookupA uid s.heap with
                | some u => u.name.name
                | none => []
              (s, [], .ok (some (.userPart userName c.name (msg.timeOrNow now))))

/-- The `KICK` case (no sender requirement in the code). -/
def caseKick (s : Session) (msg : Msg) (playback : Bool) (now : Int) : HRes :=
  match msg.parseParams 2 with
  | .error e => (s, [], .errOut e)
  | .ok _ =>
    let channel := msg.p 0
    let nick := msg.p 1
    if playback then
      (s, [], .ok (some (.userPart nick channel (msg.timeOrNow now))))
    else
      let nickCf := s.cm nick
      let channelCf := s.cm channel
      if s.isMe nickCf then
        match lookupA channelCf s.channels with
        | none => (s, [], .ok none)
        | some c =>
          (selfPartCleanup s channelCf c, [], .ok (some (.selfPart c.name)))
      else
        match lookupA channelCf s.channels with
        | none => (s, [], .ok none)
        | some c =>
          match lookupA nickCf s.users with
          | none => (s, [], .ok none)
          | some uid =>
            let c' := { c with members := eraseA uid c.members }
            let s := { s with channels := insertA channelCf c' s.channels }
            let s := s.cleanUser uid
            let s := typingsDone s channelCf nickCf
            (s, [], .ok (some (.userPart nick c.name (msg.timeOrNow now))))

/-- The `QUIT` loop over all channels the quitter was in. -/
def quitLoop (uid : Nat) (nickCf : GoStr) :
    Session → List (GoStr × Channel) → Session × List GoStr
  | s, [] => (s, [])
  | s, (channelCf, _) :: rest =>
    match lookupA channelCf s.channels with
    | none => quitLoop uid nickCf s rest
    | some c =>
      match lookupA uid c.members with
      | none => quitLoop uid nickCf s rest
      | some _ =>
        let c' := { c with members := eraseA uid c.members }
        let s := { s with channels := insertA channelCf c' s.channels }
        let s := s.cleanUser uid
        let s := typingsDone s channelCf nickCf
        let (s, names) := quitLoop uid nickCf s rest
        (s, c.name :: names)

/-- The `QUIT` case. -/
def caseQuit (s : Session) (msg : Msg) (playback : Bool) (now : Int) : HRes :=
  match msg.sender with
  | none => (s, [], .errOut .missingSender)
  | some sender =>
    if playback then
      (s, [], .ok (some (.userQuit sender.name [] (msg.timeOrNow now))))
    else
      let nickCf := s.cm sender.name
      match lookupA nickCf s.users with
      | none => (s, [], .ok none)
      | some uid =>
        match lookupA uid s.heap with
        | none => (s, [], .ok none)
        | some u =>
          let s := { s with heap := insertA uid { u with disconnected := true } s.heap }
          let (s, names) := quitLoop uid nickCf s s.channels
          (s, [], .ok (some (.userQuit u.name.name names (msg.timeOrNow now))))

/-- The loop shared by the MONITOR online/offline numerics (730/731);
`offline` selects which numeric.  Returns on the first actual
transition. -/
def monLoop (offline : Bool) : Session → List GoStr → Session × Option Event
  | s, [] => (s, none)
  | s, target :: rest =>
    match parseSender target with
    | none => monLoop offline s rest
    | some pfx =>
      let nickCf := s.cm pfx.name
      if memS nickCf s.monitors then
        let (s, uid) :=
          match lookupA nickCf s.users with
          | some uid => (s, uid)
          | none =>
            let uid := s.nextId
            ({ s with users := insertA nickCf uid s.users,
                       heap := insertA uid ⟨pfx, false, false⟩ s.heap,
                       nextId := uid + 1 }, uid)
        match lookupA uid s.heap with
        | none => monLoop offline s rest
        | some u =>
          if offline then
            if ¬ u.disconnected then
              let s := { s with heap := insertA uid { u with disconnected := true } s.heap }
              (s, some (.userOffline u.name.name))
            else monLoop offline s rest
          else
            if u.disconnected then
              let s := { s with heap := insertA uid { u with disconnected := false } s.heap }
              (s, some (.userOnline u.name.name))
            else monLoop offline s rest
      else monLoop offline s rest

/-- The `rplMononline`/`rplMonoffline` cases; `msg.Params[1]` is read
without a parameter-count check, so a short message panics. -/
def caseMon (offline : Bool) (s : Session) (msg : Msg) : HRes :=
  match msg.params.get? 1 with
  | none => (s, [], .crashed)
  | some p1 =>
    let (s, ev) := monLoop offline s (goSplitAll 44 p1)
    (s, [], .ok ev)

/-- The `rplNamreply` (353) case. -/
def caseNamreply (s : Session) (msg : Msg) : HRes :=
  match msg.parseParams 4 with
  | .error e => (s, [], .errOut e)
  | .ok _ =>
    let channel := msg.p 2
    let names := msg.p 3
    let channelCf := s.cm channel
    match lookupA channelCf s.channels with
    | none => (s, [], .ok none)
    | some c =>
      let (s, c) := (parseNameReply names s.prefixSymbols).foldl
        (fun (acc : Session × Channel) entry =>
          let (s, c) := acc
          let nickCf := s.cm entry.who.name
          let (s, uid) :=
            match lookupA nickCf s.users with
            | some uid => (s, uid)
            | none =>
              let uid := s.nextId
              ({ s with users := insertA nickCf uid s.users,
                         heap := insertA uid ⟨entry.who, false, false⟩ s.heap,
                         nextId := uid + 1 }, uid)
          (s, { c with members := insertA uid entry.powerLevel c.members }))
        (s, c)
      ({ s with channels := insertA channelCf c s.channels }, [], .ok none)

/-- The `rplEndofnames` (366) case. -/
def caseEndofnames (s : Session) (msg : Msg) (now : Int) : HRes :=
  match msg.parseParams 2 with
  | .error e => (s, [], .errOut e)
  | .ok _ =>
    let channel := msg.p 1
    let channelCf := s.cm channel
    match lookupA channelCf s.channels with
    | none => (s, [], .ok none)
    | some c =>
      if c.complete then (s, [], .ok none)
      else
        let s := { s with channels := insertA channelCf { c with complete := true } s.channels }
        let requested :=
          match lookupA channelCf s.pendingChannels with
          | some stamp => now - stamp < 5 * 1000000000
          | none => false
        (s, [], .ok (some (.selfJoin c.name requested c.topic)))

/-- The `rplTopic` (332) case. -/
def caseRplTopic (s : Session) (msg : Msg) : HRes :=
  match msg.parseParams 3 with
  | .error e => (s, [], .errOut e)
  | .ok _ =>
    let channelCf := s.cm (msg.p 1)
    match lookupA channelCf s.channels with
    | none => (s, [], .ok none)
    | some c =>
      ({ s with channels := insertA channelCf { c with topic := msg.p 2 } s.channels },
       [], .ok none)

/-- The `rplTopicwhotime` (333) case. -/
def caseTopicWhoTime (s : Session) (msg : Msg) : HRes :=
  match msg.parseParams 4 with
  | .error e => (s, [], .errOut e)
  | .ok _ =>
    let channelCf := s.cm (msg.p 1)
    let t := goParseIntD (msg.p 3)
    match lookupA channelCf s.channels with
    | none => (s, [], .ok none)
    | some c =>
      let c' := { c with topicWho := parseSender (msg.p 2), topicTime := t * 1000000000 }
      ({ s with channels := insertA channelCf c' s.channels }, [], .ok none)

/-- The `rplNotopic` (331) case. -/
def caseNotopic (s : Session) (msg : Msg) : HRes :=
  match msg.parseParams 2 with
  | .error e => (s, [], .errOut e)
  | .ok _ =>
    let channelCf := s.cm (msg.p 1)
    match lookupA channelCf s.channels with
    | none => (s, [], .ok none)
    | some c =>
      ({ s with channels := insertA channelCf { c with topic := [] } s.channels },
       [], .ok none)

/-- The `TOPIC` case. -/
def caseTopicCmd (s : Session) (msg : Msg) (playback : Bool) (now : Int) : HRes :=
  match msg.sender with
  | none => (s, [], .errOut .missingSender)
  | some sender =>
    match msg.parseParams 2 with
    | .error e => (s, [], .errOut e)
    | .ok _ =>
      let channel := msg.p 0
      let topic := msg.p 1
      if playback then
        (s, [], .ok (some (.topicChange channel topic (msg.timeOrNow now))))
      else
        let channelCf := s.cm channel
        match lookupA channelCf s.channels with
        | none => (s, [], .ok none)
        | some c =>
          let c := { c with topic := topic, topicWho := some sender,
                             topicTime := msg.timeOrNow now }
          ({ s with channels := insertA channelCf c s.channels }, [],
           .ok (some (.topicChange c.name c.topic (msg.timeOrNow now))))

/-- Insertion of a membership symbol keeping the string ordered by
symbol rank (`sort.Slice` in the code, total order on ranks). -/
def rankInsert (symbols : GoStr) (b : Nat) : GoStr → GoStr
  | [] => [b]
  | c :: rest =>
    if goIndexByte symbols c ≤ goIndexByte symbols b then c :: rankInsert symbols b rest
    else b :: c :: rest

/-- The membership-update loop of the `MODE` case; `crashes` models the
`s.prefixSymbols[i]` panic when the symbol table is shorter than the
mode table. -/
def modeLoop (s : Session) (channelCf : GoStr) :
    List ModeChange → Channel → Option Channel
  | [], c => some c
  | change :: rest, c =>
    let i := goIndexByte s.prefixModes change.mode
    if i < 0 then modeLoop s channelCf rest c
    else
      match s.prefixSymbols.get? i.toNat with
      | none => none
      | some sym =>
        let nickCf := s.cm change.param
        match lookupA nickCf s.users with
        | none => modeLoop s channelCf rest c
        | some uid =>
          match lookupA uid c.members with
          | none => modeLoop s channelCf rest c
          | some membership =>
            let newMembership :=
              if change.enable then
                membership.foldl (fun acc ch => rankInsert s.prefixSymbols ch acc)
                  (rankInsert s.prefixSymbols sym [])
              else
                match goIndexByte membership sym with
                | j =>
                  if 0 ≤ j then membership.take j.toNat ++ membership.drop (j.toNat + 1)
                  else []
            modeLoop s channelCf rest { c with members := insertA uid newMembership c.members }

/-- The `MODE` case. -/
def caseMode (s : Session) (msg : Msg) (playback : Bool) (now : Int) : HRes :=
  match msg.parseParams 2 with
  | .error e => (s, [], .errOut e)
  | .ok _ =>
    let channel := msg.p 0
    let mode := goJoinSpace (msg.params.drop 1)
    if playback then
      (s, [], .ok (some (.modeChange channel mode (msg.timeOrNow now))))
    else
      let channelCf := s.cm channel
      match lookupA channelCf s.channels with
      | none => (s, [], .ok none)
      | some c =>
        match parseChannelMode (msg.p 1) (msg.params.drop 2) s.chanmodes s.prefixModes with
        | .error e => (s, [], .errOut e)
        | .ok changes =>
          match modeLoop s channelCf changes c with
          | none => (s, [], .crashed)
          | some c =>
            ({ s with channels := insertA channelCf c s.channels }, [],
             .ok (some (.modeChange c.name mode (msg.timeOrNow now))))

/-- The `INVITE` case. -/
def caseInvite (s : Session) (msg : Msg) : HRes :=
  match msg.sender with
  | none => (s, [], .errOut .missingSender)
  | some sender =>
    match msg.parseParams 2 with
    | .error e => (s, [], .errOut e)
    | .ok _ => (s, [], .ok (some (.invite sender.name (msg.p 0) (msg.p 1))))

/-- The `rplInviting` (341) case. -/
def caseInviting (s : Session) (msg : Msg) : HRes :=
  match msg.parseParams 3 with
  | .error e => (s, [], .errOut e)
  | .ok _ => (s, [], .ok (some (.invite s.nick (msg.p 1) (msg.p 2))))

/-- The `AWAY` case. -/
def caseAway (s : Session) (msg : Msg) : HRes :=
  match msg.sender with
  | none => (s, [], .errOut .missingSender)
  | some sender =>
    let nickCf := s.cm sender.name
    match lookupA nickCf s.users with
    | none => (s, [], .ok none)
    | some uid =>
      match lookupA uid s.heap with
      | none => (s, [], .ok none)
      | some u =>
        ({ s with heap := insertA uid { u with away := msg.params.length = 1 } s.heap },
         [], .ok none)

/-- `Session.newMessageEvent` (src/irc/session.go:1387). -/
def newMessageEvent (s : Session) (msg : Msg) (now : Int) : Except GoErr Event :=
  match msg.sender with
  | none => .error .missingSender
  | some sender =>
    match msg.parseParams 2 with
    | .error e => .error e
    | .ok _ =>
      let target := msg.p 0
      let content := msg.p 1
      let targetCf := s.cm target
      match lookupA targetCf s.channels with
      | some c => .ok (.message sender.name c.name msg.command content true (msg.timeOrNow now))
      | none => .ok (.message sender.name target msg.command content false (msg.timeOrNow now))

/-- The `PRIVMSG`/`NOTICE` case. -/
def casePrivmsgNotice (s : Session) (msg : Msg) (playback : Bool) (now : Int) : HRes :=
  match msg.sender with
  | none => (s, [], .errOut .missingSender)
  | some sender =>
    match msg.parseParams 1 with
    | .error e => (s, [], .errOut e)
    | .ok _ =>
      if playback then
        match newMessageEvent s msg now with
        | .error e => (s, [], .errOut e)
        | .ok ev => (s, [], .ok (some ev))
      else
        let targetCf := s.cm (msg.p 0)
        let nickCf := s.cm sender.name
        let s := typingsDone s targetCf nickCf
        match newMessageEvent s msg now with
        | .error e => (s, [], .errOut e)
        | .ok ev => (s, [], .ok (some ev))

/-- The `TAGMSG` case. -/
def caseTagmsg (s : Session) (msg : Msg) (playback : Bool) : HRes :=
  if playback then (s, [], .ok none)
  else
    match msg.sender with
    | none => (s, [], .errOut .missingSender)
    | some sender =>
      match msg.parseParams 1 with
      | .error e => (s, [], .errOut e)
      | .ok _ =>
        let targetCf := s.cm (msg.p 0)
        let nickCf := s.cm sender.name
        if s.isMe sender.name then (s, [], .ok none)
        else
          match lookupA (gs "+typing") msg.tags with
          | none => (s, [], .ok none)
          | some t =>
            if t = gs "active" then (typingsActive s targetCf nickCf, [], .ok none)
            else if t = gs "paused" ∨ t = gs "done" then
              (typingsDone s targetCf nickCf, [], .ok none)
            else (s, [], .ok none)

/-- The `BATCH` case. -/
def caseBatch (s : Session) (msg : Msg) : HRes :=
  match msg.parseParams 1 with
  | .error e => (s, [], .errOut e)
  | .ok _ =>
    match msg.p 0 with
    | [] => (s, [], .errOut .emptyBatchId)
    | b0 :: idr =>
      let batchStart := b0 = 43
      if batchStart then
        match msg.parseParams 2 with
        | .error e => (s, [], .errOut e)
        | .ok _ =>
          let name := msg.p 1
          if name = gs "chathistory" then
            match msg.parseParams 3 with
            | .error e => (s, [], .errOut e)
            | .ok _ =>
              ({ s with chBatches := insertA idr ⟨msg.p 2, []⟩ s.chBatches }, [], .ok none)
          else if name = gs "draft/chathistory-targets" then
            ({ s with targetsBatchID := idr, targetsBatch := [] }, [], .ok none)
          else if name = gs "soju.im/search" then
            ({ s with searchBatchID := idr, searchBatch := [] }, [], .ok none)
          else (s, [], .ok none)
      else
        match lookupA idr s.chBatches with
        | some b =>
          let s := { s with chBatches := eraseA idr s.chBatches,
                            chReqs := eraseS (s.cm b.target) s.chReqs }
          (s, [], .ok (some (.history b.target b.messages)))
        | none =>
          if s.targetsBatchID = idr then
            let s := { s with targetsBatchID := [], chReqs := eraseS [] s.chReqs }
            (s, [], .ok (some (.historyTargets s.targetsBatch)))
          else if s.searchBatchID = idr then
            ({ s with searchBatchID := [] }, [], .ok (some (.searchResults s.searchBatch)))
          else (s, [], .ok none)

/-- The `NICK` case. -/
def caseNick (s : Session) (msg : Msg) (playback : Bool) (now : Int) : HRes :=
  match msg.sender with
  | none => (s, [], .errOut .missingSender)
  | some sender =>
    match msg.parseParams 1 with
    | .error e => (s, [], .errOut e)
    | .ok _ =>
      if playback then
        (s, [], .ok (some (.userNick (msg.p 0) sender.name (msg.timeOrNow now))))
      else
        let nickCf := s.cm sender.name
        let newNick := msg.p 0
        let newNickCf := s.cm newNick
        match lookupA nickCf s.users with
        | none => (s, [], .ok none)
        | some uid =>
          let s :=
            match lookupA uid s.heap with
            | some u =>
              { s with heap := insertA uid { u with name := { u.name with name := newNick } } s.heap }
            | none => s
          let s := { s with users := insertA newNickCf uid (eraseA nickCf s.users) }
          if s.isMe sender.name then
            ({ s with nick := newNick, nickCf := newNickCf }, [],
             .ok (some (.selfNick sender.name)))
          else
            (s, [], .ok (some (.userNick newNick sender.name (msg.timeOrNow now))))

/-- The `READ` case. -/
def caseRead (s : Session) (msg : Msg) : HRes :=
  if msg.params.length < 2 then (s, [], .ok none)
  else
    match msg.parseParams 2 with
    | .error e => (s, [], .errOut e)
    | .ok _ =>
      let target := msg.p 0
      let timestamp := msg.p 1
      if timestamp.take 10 ≠ gs "timestamp=" then (s, [], .ok none)
      else
        match parseTimestamp (timestamp.drop 10) with
        | none => (s, [], .ok none)
        | some t => (s, [], .ok (some (.readMarker target t)))

/-- The `BOUNCER` case. -/
def caseBouncer (s : Session) (msg : Msg) : HRes :=
  if msg.params.length < 3 then (s, [], .ok none)
  else if msg.p 0 ≠ gs "NETWORK" ∨ s.netID ≠ [] then (s, [], .ok none)
  else
    let id := msg.p 1
    let attrs := parseTagsStr (msg.p 2)
    (s, [], .ok (some (.bouncerNetwork id ((lookupA (gs "name") attrs).getD []))))

/-- The `PING` case. -/
def casePing (s : Session) (msg : Msg) : HRes :=
  match msg.parseParams 1 with
  | .error e => (s, [], .errOut e)
  | .ok _ => (s, [newMsg (gs "PONG") [msg.p 0]], .ok none)

/-- The `FAIL`/`WARN`/`NOTE` case. -/
def caseFailWarnNote (s : Session) (msg : Msg) : HRes :=
  match msg.parseParams 2 with
  | .error e => (s, [], .errOut e)
  | .ok _ =>
    let severity : Severity :=
      if msg.command = gs "FAIL" then .fail
      else if msg.command = gs "WARN" then .warn
      else .note
    (s, [], .ok (some (.errorEv severity (msg.p 1) (goJoinSpace (msg.params.drop 2)))))

/-- The default case: numeric replies become severity-tagged events. -/
def caseDefault (s : Session) (msg : Msg) : HRes :=
  if msg.isReply then
    if msg.params.length < 2 then (s, [], .errOut (.notEnoughParams 2))
    else if msg.command = gs "421" ∧ msg.p 1 = gs "BOUNCER" then (s, [], .ok none)
    else
      (s, [], .ok (some (.errorEv (replySeverity msg.command) msg.command
        (goJoinSpace (msg.params.drop 1)))))
  else (s, [], .ok none)

/-- `Session.handleMessageRegistered(msg, playback)`: the big command
switch (src/irc/session.go:640). -/
def handleMessageRegistered (env : Env) (s : Session) (msg : Msg)
    (playback : Bool) (now : Int) : HRes :=
  if msg.command = gs "AUTHENTICATE" then caseAuthenticate env s msg
  else if msg.command = gs "900" then caseLoggedin s msg
  else if msg.command = gs "902" ∨ msg.command = gs "904" ∨ msg.command = gs "905" ∨
          msg.command = gs "906" ∨ msg.command = gs "907" ∨ msg.command = gs "908" then
    caseSaslFail s msg
  else if msg.command = gs "001" then caseWelcome s msg
  else if msg.command = gs "005" then caseIsupport s msg
  else if msg.command = gs "352" then caseWhoreply s msg
  else if msg.command = gs "315" then (s, [], .ok none)
  else if msg.command = gs "CAP" then caseCap env s msg
  else if msg.command = gs "JOIN" then caseJoin s msg playback now
  else if msg.command = gs "PART" then casePart s msg playback now
  else if msg.command = gs "KICK" then caseKick s msg playback now
  else if msg.command = gs "QUIT" then caseQuit s msg playback now
  else if msg.command = gs "730" then caseMon false s msg
  else if msg.command = gs "731" then caseMon true s msg
  else if msg.command = gs "353" then caseNamreply s msg
  else if msg.command = gs "366" then caseEndofnames s msg now
  else if msg.command = gs "332" then caseRplTopic s msg
  else if msg.command = gs "333" then caseTopicWhoTime s msg
  else if msg.command = gs "331" then caseNotopic s msg
  else if msg.command = gs "TOPIC" then caseTopicCmd s msg playback now
  else if msg.command = gs "MODE" then caseMode s msg playback now
  else if msg.command = gs "INVITE" then caseInvite s msg
  else if msg.command = gs "341" then caseInviting s msg
  else if msg.command = gs "AWAY" then caseAway s msg
  else if msg.command = gs "PRIVMSG" ∨ msg.command = gs "NOTICE" then
    casePrivmsgNotice s msg playback now
  else if msg.command = gs "TAGMSG" then caseTagmsg s msg playback
  else if msg.command = gs "BATCH" then caseBatch s msg
  else if msg.command = gs "NICK" then caseNick s msg playback now
  else if msg.command = gs "READ" then caseRead s msg
  else if msg.command = gs "BOUNCER" then caseBouncer s msg
  else if msg.command = gs "PING" then casePing s msg
  else if msg.command = gs "ERROR" then (s.closeS, [], .ok none)
  else if msg.command = gs "FAIL" ∨ msg.command = gs "WARN" ∨ msg.command = gs "NOTE" then
    caseFailWarnNote s msg
  else if msg.command = gs "734" then (s, [], .ok none)
  else caseDefault s msg

/-! ## Concrete states used by witnesses. -/

/-- A concrete environment for witnesses. -/
def envW : Env := ⟨fun _ _ => true, fun _ => .ok (gs "resp"), gs "PLAIN"⟩

/-- A concrete session for witnesses. -/
def sessionW : Session := initSession (gs "me") (gs "user") (gs "Real Name") [] false

/-! ## Claims about `Session.updateFeatures`. -/

/-- C6: applying `updateFeatures` to the token list
`["CASEMAPPING=ascii", "PREFIX=(ov)@+", "LINELEN=300"]` sets the casemap
rule to ASCII, `prefixModes` to `"ov"`, `prefixSymbols` to `"@+"` and
`linelen` to 300, from any prior session state. -/
theorem updateFeatures_example_tokens (s : Session) :
    ∃ s', updateFeatures s
        [gs "CASEMAPPING=ascii", gs "PREFIX=(ov)@+", gs "LINELEN=300"] = some s' ∧
      s'.casemap = .ascii ∧ s'.prefixModes = gs "ov" ∧
      s'.prefixSymbols = gs "@+" ∧ s'.linelen = 300 := by
  exact ⟨_, rfl, rfl, rfl, rfl, rfl⟩

/-- Witness for C6 at the concrete default session. -/
theorem updateFeatures_example_tokens_witness :
    ∃ s', updateFeatures sessionW
        [gs "CASEMAPPING=ascii", gs "PREFIX=(ov)@+", gs "LINELEN=300"] = some s' ∧
      s'.casemap = .ascii ∧ s'.prefixModes = gs "ov" ∧
      s'.prefixSymbols = gs "@+" ∧ s'.linelen = 300 :=
  updateFeatures_example_tokens sessionW

/-- C8: a feature token starting with `-` is parsed but not applied: the
step of `updateFeatures` that processes it returns the session completely
unchanged (in particular every feature-table field is unchanged). -/
theorem updateFeatures_minus_token_unchanged (s : Session) (tok : GoStr)
    (h : tok.head? = some 45) :
    updateFeaturesStep s tok = some s := by
  match tok, h with
  | 45 :: rest, _ =>
    show updateFeaturesStep s (45 :: rest) = some s
    unfold updateFeaturesStep
    by_cases hg : (45 :: rest : GoStr) = [] ∨ (45 :: rest : GoStr) = [45] ∨
        (45 :: rest : GoStr) = [61] ∨ (45 :: rest : GoStr) = [45, 61]
    · simp [hg]
    · simp [hg]

/-- Witness for C8 on a concrete `-LINELEN=300` token. -/
theorem updateFeatures_minus_token_unchanged_witness :
    updateFeaturesStep sessionW (gs "-LINELEN=300") = some sessionW :=
  updateFeatures_minus_token_unchanged sessionW (gs "-LINELEN=300") (by decide)

/-- C10 (code bug): `updateFeatures` is not total.  A `PREFIX` token with
an empty value reaches `numPrefixes = len("")/2 - 1 = -1` and evaluates
`value[1:0]`, an out-of-range string slice: the Go code panics, modelled
here by the `none` result. -/
theorem updateFeatures_empty_prefix_panics (s : Session) :
    updateFeatures s [gs "PREFIX"] = none ∧ updateFeatures s [gs "PREFIX="] = none :=
  ⟨rfl, rfl⟩

/-- Witness for C10 at the concrete default session. -/
theorem updateFeatures_empty_prefix_panics_witness :
    updateFeatures sessionW [gs "PREFIX"] = none ∧
    updateFeatures sessionW [gs "PREFIX="] = none :=
  updateFeatures_empty_prefix_panics sessionW

/-! ## Dispatcher reduction lemmas. -/

theorem dispatch_endofnames (env : Env) (s : Session) (msg : Msg) (pb : Bool)
    (now : Int) (h : msg.command = gs "366") :
    handleMessageRegistered env s msg pb now = caseEndofnames s msg now := by
  obtain ⟨tags, sender, command, params, time?⟩ := msg
  simp only at h
  subst h
  rfl

theorem dispatch_part (env : Env) (s : Session) (msg : Msg) (pb : Bool)
    (now : Int) (h : msg.command = gs "PART") :
    handleMessageRegistered env s msg pb now = casePart s msg pb now := by
  obtain ⟨tags, sender, command, params, time?⟩ := msg
  simp only at h
  subst h
  rfl

theorem dispatch_kick (env : Env) (s : Session) (msg : Msg) (pb : Bool)
    (now : Int) (h : msg.command = gs "KICK") :
    handleMessageRegistered env s msg pb now = caseKick s msg pb now := by
  obtain ⟨tags, sender, command, params, time?⟩ := msg
  simp only at h
  subst h
  rfl

theorem dispatch_quit (env : Env) (s : Session) (msg : Msg) (pb : Bool)
    (now : Int) (h : msg.command = gs "QUIT") :
    handleMessageRegistered env s msg pb now = caseQuit s msg pb now := by
  obtain ⟨tags, sender, command, params, time?⟩ := msg
  simp only at h
  subst h
  rfl

theorem dispatch_mononline (env : Env) (s : Session) (msg : Msg) (pb : Bool)
    (now : Int) (h : msg.command = gs "730") :
    handleMessageRegistered env s msg pb now = caseMon false s msg := by
  obtain ⟨tags, sender, command, params, time?⟩ := msg
  simp only at h
  subst h
  rfl

theorem dispatch_monoffline (env : Env) (s : Session) (msg : Msg) (pb : Bool)
    (now : Int) (h : msg.command = gs "731") :
    handleMessageRegistered env s msg pb now = caseMon true s msg := by
  obtain ⟨tags, sender, command, params, time?⟩ := msg
  simp only at h
  subst h
  rfl

theorem dispatch_batch (env : Env) (s : Session) (msg : Msg) (pb : Bool)
    (now : Int) (h : msg.command = gs "BATCH") :
    handleMessageRegistered env s msg pb now = caseBatch s msg := by
  obtain ⟨tags, sender, command, params, time?⟩ := msg
  simp only at h
  subst h
  rfl

/-! ## C1: end-of-names completes a channel exactly once. -/

/-- C1: `Session.Join` records the pending-join stamp under the casemapped
channel name, and for a joined channel the first `RPL_ENDOFNAMES` sets the
channel's complete flag and returns a self-join event carrying the topic
and a `Requested` flag that is true exactly when a pending stamp for that
casemapped channel is less than 5 seconds old; a second end-of-names for
the same channel returns no event and leaves the flag set. -/
theorem endofnames_completes_once
    (env : Env) (s : Session) (msg : Msg) (channel : GoStr) (c : Channel)
    (now now' : Int)
    (hcmd : msg.command = gs "366")
    (hlen : msg.params.length = 2)
    (hch : msg.p 1 = channel)
    (hc : lookupA (s.cm channel) s.channels = some c)
    (hincomplete : c.complete = false) :
    (∀ (s₀ : Session) (key : GoStr) (tj : Int),
        lookupA (s₀.cm channel) ((s₀.join channel key tj).1.pendingChannels) = some tj) ∧
    ∃ (s' : Session) (req : Bool),
      handleMessageRegistered env s msg false now =
        (s', [], .ok (some (.selfJoin c.name req c.topic))) ∧
      lookupA (s.cm channel) s'.channels = some { c with complete := true } ∧
      (req = true ↔
        ∃ t0, lookupA (s.cm channel) s.pendingChannels = some t0 ∧
          now - t0 < 5 * 1000000000) ∧
      handleMessageRegistered env s' msg false now' = (s', [], .ok none) := by
  constructor
  · intro s₀ key tj
    by_cases hk : key = ([] : GoStr) <;>
      simp [Session.join, hk, lookupA_insertA_self]
  · rw [dispatch_endofnames env s msg false now hcmd]
    unfold caseEndofnames
    simp only [Msg.parseParams, hlen, lt_self_iff_false, if_false, hch, hc, hincomplete,
      Bool.false_eq_true]
    refine ⟨_, _, rfl, lookupA_insertA_self _ _ _, ?_, ?_⟩
    · cases hp : lookupA (s.cm channel) s.pendingChannels with
      | none => simp [hp]
      | some t0 =>
        simp only [hp, decide_eq_true_eq]
        constructor
        · intro hlt
          exact ⟨t0, rfl, hlt⟩
        · rintro ⟨t1, ht1, hlt⟩
          cases Option.some.inj ht1
          exact hlt
    · rw [dispatch_endofnames env _ msg false now' hcmd]
      unfold caseEndofnames
      simp only [Msg.parseParams, hlen, lt_self_iff_false, if_false, hch, Session.cm]
      rw [lookupA_insertA_self]
      simp

/-- Witness state for C1: a session with an incomplete channel `#c` and a
pending join recorded at instant 10. -/
def sessionW366 : Session :=
  { sessionW with
    channels := [(gs "#c", ⟨gs "#c", [], gs "the topic", none, 0, false⟩)],
    pendingChannels := [(gs "#c", 10)] }

/-- The end-of-names message used by the C1 witness. -/
def msgW366 : Msg := ⟨[], none, gs "366", [gs "me", gs "#c"], none⟩

/-- Witness for C1 at a concrete state and message. -/
theorem endofnames_completes_once_witness :
    (∀ (s₀ : Session) (key : GoStr) (tj : Int),
        lookupA (s₀.cm (gs "#c")) ((s₀.join (gs "#c") key tj).1.pendingChannels) = some tj) ∧
    ∃ (s' : Session) (req : Bool),
      handleMessageRegistered envW sessionW366 msgW366 false 11 =
        (s', [], .ok (some (.selfJoin (gs "#c") req (gs "the topic")))) ∧
      lookupA (sessionW366.cm (gs "#c")) s'.channels =
        some ⟨gs "#c", [], gs "the topic", none, 0, true⟩ ∧
      (req = true ↔
        ∃ t0, lookupA (sessionW366.cm (gs "#c")) sessionW366.pendingChannels = some t0 ∧
          11 - t0 < 5 * 1000000000) ∧
      handleMessageRegistered envW s' msgW366 false 999 = (s', [], .ok none) :=
  endofnames_completes_once envW sessionW366 msgW366 (gs "#c")
    ⟨gs "#c", [], gs "the topic", none, 0, false⟩ 11 999 rfl rfl rfl (by decide) rfl

/-! ## C2: helper lemmas about `Session.cleanUser`. -/

theorem lookupA_mem {K V : Type} [DecidableEq K] {k : K} {v : V}
    {l : List (K × V)} (h : lookupA k l = some v) : (k, v) ∈ l := by
  induction l with
  | nil => simp [lookupA] at h
  | cons p rest ih =>
    obtain ⟨k', v'⟩ := p
    by_cases hk : k' = k
    · subst hk
      simp [lookupA] at h
      subst h
      exact List.mem_cons_self _ _
    · simp [lookupA, hk] at h
      exact List.mem_cons_of_mem _ (ih h)

theorem any_members_false (uid : Nat) (l : List (GoStr × Channel))
    (h : ∀ p ∈ l, lookupA uid p.2.members = none) :
    (l.any fun c => (lookupA uid c.2.members).isSome) = false := by
  induction l with
  | nil => rfl
  | cons p rest ih =>
    simp only [List.any_cons, Bool.or_eq_false_iff]
    refine ⟨?_, ih fun q hq => h q (List.mem_cons_of_mem _ hq)⟩
    rw [h p (List.mem_cons_self _ _)]
    rfl

/-- After replacing the unique binding of `k` by a channel in which `uid`
is not a member, no channel of the map has `uid` as a member, provided
every channel other than `k`'s did not have it before. -/
theorem members_scan_false (l : List (GoStr × Channel)) (k : GoStr)
    (c' : Channel) (uid : Nat)
    (h1 : ∀ p ∈ l, p.1 ≠ k → lookupA uid p.2.members = none)
    (h2 : lookupA uid c'.members = none)
    (hnd : (l.map Prod.fst).Nodup) :
    ((insertA k c' l).any fun p => (lookupA uid p.2.members).isSome) = false := by
  induction l with
  | nil =>
    simp only [insertA, List.any_cons, List.any_nil, Bool.or_false]
    rw [h2]
    rfl
  | cons p rest ih =>
    obtain ⟨k1, c1⟩ := p
    simp only [List.map_cons, List.nodup_cons] at hnd
    by_cases hk : k1 = k
    · subst hk
      rw [show insertA k1 c' ((k1, c1) :: rest) = (k1, c') :: rest from by
        simp [insertA]]
      simp only [List.any_cons]
      rw [h2]
      simp only [Option.isSome_none, Bool.false_or]
      apply any_members_false
      intro q hq
      refine h1 q (List.mem_cons_of_mem _ hq) ?_
      intro hqk
      exact hnd.1 (hqk ▸ List.mem_map_of_mem Prod.fst hq)
    · simp only [insertA, if_neg hk, List.any_cons]
      rw [h1 (k1, c1) (List.mem_cons_self _ _) hk]
      simp only [Option.isSome_none, Bool.false_or]
      exact ih (fun q hq hqk => h1 q (List.mem_cons_of_mem _ hq) hqk) hnd.2

/-- `cleanUser` never touches a monitored user. -/
theorem cleanUser_monitored (s : Session) (uid : Nat) (u : User)
    (hh : lookupA uid s.heap = some u)
    (hm : memS (s.cm u.name.name) s.monitors = true) :
    s.cleanUser uid = s := by
  unfold Session.cleanUser
  rw [hh]
  simp [hm]

/-- `cleanUser` deletes an unmonitored user that is in no channel. -/
theorem cleanUser_free (s : Session) (uid : Nat) (u : User)
    (hh : lookupA uid s.heap = some u)
    (hm : memS (s.cm u.name.name) s.monitors = false)
    (hscan : (s.channels.any fun c => (lookupA uid c.2.members).isSome) = false) :
    s.cleanUser uid = { s with users := eraseA (s.cm u.name.name) s.users } := by
  unfold Session.cleanUser
  rw [hh]
  simp [hm, hscan]

/-- `cleanUser` keeps an unmonitored user that is still in a channel. -/
theorem cleanUser_member (s : Session) (uid : Nat) (u : User)
    (hh : lookupA uid s.heap = some u)
    (hscan : (s.channels.any fun c => (lookupA uid c.2.members).isSome) = true) :
    s.cleanUser uid = s := by
  unfold Session.cleanUser
  rw [hh]
  by_cases hm : memS (s.cm u.name.name) s.monitors <;> simp [hm, hscan]

/-- The common PART/KICK/QUIT step: remove `uid` from channel `channelCf`
and run `cleanUser`.  The user's roster entry survives exactly when it is
monitored, assuming this was its last membership. -/
theorem partlike_cleanup (s : Session) (channelCf nickCf : GoStr) (c : Channel)
    (uid : Nat) (u : User)
    (hheap : lookupA uid s.heap = some u)
    (hname : s.cm u.name.name = nickCf)
    (hlast : ∀ p ∈ s.channels, p.1 ≠ channelCf → lookupA uid p.2.members = none)
    (hnd : (s.channels.map Prod.fst).Nodup) :
    (memS nickCf s.monitors = true →
      (Session.cleanUser
        { s with channels :=
            insertA channelCf { c with members := eraseA uid c.members } s.channels }
        uid).users = s.users) ∧
    (memS nickCf s.monitors = false →
      (Session.cleanUser
        { s with channels :=
            insertA channelCf { c with members := eraseA uid c.members } s.channels }
        uid).users = eraseA nickCf s.users) := by
  set c' : Channel := { c with members := eraseA uid c.members } with hc'
  set s1 : Session := { s with channels := insertA channelCf c' s.channels } with hs1
  have hh1 : lookupA uid s1.heap = some u := hheap
  have hcm1 : s1.cm u.name.name = nickCf := hname
  constructor
  · intro hm
    rw [cleanUser_monitored s1 uid u hh1 (by rw [hcm1]; exact hm)]
  · intro hm
    have hscan : (s1.channels.any fun p => (lookupA uid p.2.members).isSome) = false := by
      show ((insertA channelCf c' s.channels).any
        fun p => (lookupA uid p.2.members).isSome) = false
      exact members_scan_false s.channels channelCf c' uid hlast
        (by rw [hc']; exact lookupA_eraseA_self uid c.members) hnd
    rw [cleanUser_free s1 uid u hh1 (by rw [hcm1]; exact hm) hscan, hcm1]

theorem lookupA_split {K V : Type} [DecidableEq K] {k : K} {v : V}
    {l : List (K × V)} (h : lookupA k l = some v) :
    ∃ l₁ l₂, l = l₁ ++ (k, v) :: l₂ ∧ ∀ p ∈ l₁, p.1 ≠ k := by
  induction l with
  | nil => simp [lookupA] at h
  | cons p rest ih =>
    obtain ⟨k', v'⟩ := p
    by_cases hk : k' = k
    · subst hk
      rw [lookupA_cons, if_pos rfl] at h
      cases Option.some.inj h
      exact ⟨[], rest, rfl, by simp⟩
    · rw [lookupA_cons, if_neg hk] at h
      obtain ⟨l₁, l₂, heq, hne⟩ := ih h
      refine ⟨(k', v') :: l₁, l₂, by rw [heq, List.cons_append], ?_⟩
      intro p hp
      rcases List.mem_cons.mp hp with h1 | h1
      · subst h1; exact hk
      · exact hne p h1

/-- The QUIT loop skips channels in which the quitter is not a member. -/
theorem quitLoop_skip (uid : Nat) (nickCf : GoStr) (l : List (GoStr × Channel))
    (s : Session)
    (h : ∀ p ∈ l, ∀ ch, lookupA p.1 s.channels = some ch →
      lookupA uid ch.members = none) :
    quitLoop uid nickCf s l = (s, []) := by
  induction l with
  | nil => rfl
  | cons p rest ih =>
    obtain ⟨k, c0⟩ := p
    unfold quitLoop
    cases hch : lookupA k s.channels with
    | none => exact ih fun q hq => h q (List.mem_cons_of_mem _ hq)
    | some ch =>
      dsimp only
      rw [h (k, c0) (List.mem_cons_self _ _) ch hch]
      exact ih fun q hq => h q (List.mem_cons_of_mem _ hq)

/-- The QUIT loop over a prefix of skipped channels reduces to the loop
over the remainder. -/
theorem quitLoop_append_skip (uid : Nat) (nickCf : GoStr)
    (l₁ l₂ : List (GoStr × Channel)) (s : Session)
    (h : ∀ p ∈ l₁, ∀ ch, lookupA p.1 s.channels = some ch →
      lookupA uid ch.members = none) :
    quitLoop uid nickCf s (l₁ ++ l₂) = quitLoop uid nickCf s l₂ := by
  induction l₁ with
  | nil => rfl
  | cons p rest ih =>
    obtain ⟨k, c0⟩ := p
    rw [List.cons_append]
    have step : quitLoop uid nickCf s ((k, c0) :: (rest ++ l₂)) =
        quitLoop uid nickCf s (rest ++ l₂) := by
      conv_lhs => unfold quitLoop
      cases hch : lookupA k s.channels with
      | none => rfl
      | some ch =>
        dsimp only
        rw [h (k, c0) (List.mem_cons_self _ _) ch hch]
    rw [step]
    exact ih fun q hq => h q (List.mem_cons_of_mem _ hq)

/-- The users map after the full QUIT loop, when `channelCf` held the
quitter's only membership. -/
theorem quitLoop_users (s : Session) (uid : Nat) (nickCf channelCf : GoStr)
    (c : Channel) (u : User)
    (hheap : lookupA uid s.heap = some u)
    (hname : s.cm u.name.name = nickCf)
    (hc : lookupA channelCf s.channels = some c)
    (hmem : (lookupA uid c.members).isSome = true)
    (hlast : ∀ p ∈ s.channels, p.1 ≠ channelCf → lookupA uid p.2.members = none)
    (hnd : (s.channels.map Prod.fst).Nodup) :
    (memS nickCf s.monitors = true →
      (quitLoop uid nickCf s s.channels).1.users = s.users) ∧
    (memS nickCf s.monitors = false →
      (quitLoop uid nickCf s s.channels).1.users = eraseA nickCf s.users) := by
  obtain ⟨l₁, l₂, heq, hne₁⟩ := lookupA_split hc
  have hnd' := hnd
  rw [heq, List.map_append, List.map_cons] at hnd'
  have hcf_notin_l₂ : ∀ p ∈ l₂, p.1 ≠ channelCf := by
    intro p hp hpk
    have := (List.nodup_append.mp hnd').2.1
    simp only [List.nodup_cons] at this
    exact this.1 (hpk ▸ List.mem_map_of_mem Prod.fst hp)
  have hskip₁ : ∀ p ∈ l₁, ∀ ch, lookupA p.1 s.channels = some ch →
      lookupA uid ch.members = none := by
    intro p hp ch hch
    exact hlast (p.1, ch) (lookupA_mem hch) (hne₁ p hp)
  rw [heq, quitLoop_append_skip uid nickCf l₁ _ s hskip₁]
  unfold quitLoop
  rw [hc]
  dsimp only
  obtain ⟨pl, hpl⟩ := Option.isSome_iff_exists.mp hmem
  rw [hpl]
  dsimp only
  set c' : Channel := { c with members := eraseA uid c.members } with hc'
  set s1 : Session := { s with channels := insertA channelCf c' s.channels } with hs1
  have hpc := partlike_cleanup s channelCf nickCf c uid u hheap hname hlast hnd
  have hchannels2 : (typingsDone (s1.cleanUser uid) channelCf nickCf).channels =
      insertA channelCf c' s.channels := by
    unfold Session.cleanUser
    rw [show lookupA uid s1.heap = some u from hheap]
    by_cases hm : memS (s1.cm u.name.name) s1.monitors <;>
      by_cases hany : s1.channels.any fun q => (lookupA uid q.2.members).isSome <;>
        simp [typingsDone, hm, hany, hs1]
  have husers2 : (typingsDone (s1.cleanUser uid) channelCf nickCf).users =
      (s1.cleanUser uid).users := rfl
  have hskip₂ : ∀ p ∈ l₂, ∀ ch,
      lookupA p.1 (typingsDone (s1.cleanUser uid) channelCf nickCf).channels = some ch →
      lookupA uid ch.members = none := by
    intro p hp ch hch
    rw [hchannels2, lookupA_insertA_ne _ _ _ _ (Ne.symm (hcf_notin_l₂ p hp))] at hch
    exact hlast (p.1, ch) (lookupA_mem hch) (hcf_notin_l₂ p hp)
  rw [quitLoop_skip uid nickCf l₂ _ hskip₂]
  exact ⟨fun hm => (husers2.trans (hpc.1 hm)),
         fun hm => (husers2.trans (hpc.2 hm))⟩

/-- C2: for a user whose only remaining channel membership is the one a
PART, KICK or QUIT removes, the cleanup deletes the roster entry exactly
when the user's casemapped name is not monitored; a monitored user is
never deleted by `cleanUser`.  Conjunct 1 is the shared `cleanUser` rule,
conjuncts 2–4 the PART, KICK and QUIT handler paths. -/
theorem cleanup_deletes_iff_unmonitored :
    (∀ (s : Session) (uid : Nat) (u : User),
      lookupA uid s.heap = some u →
      (memS (s.cm u.name.name) s.monitors = true → s.cleanUser uid = s) ∧
      (memS (s.cm u.name.name) s.monitors = false →
        (s.channels.any fun c => (lookupA uid c.2.members).isSome) = false →
        s.cleanUser uid = { s with users := eraseA (s.cm u.name.name) s.users })) ∧
    (∀ (env : Env) (s : Session) (msg : Msg) (sender : Pfx) (channel : GoStr)
        (c : Channel) (uid : Nat) (u : User) (now : Int),
      msg.command = gs "PART" →
      msg.sender = some sender →
      msg.params.length = 1 →
      msg.p 0 = channel →
      s.isMe (s.cm sender.name) = false →
      lookupA (s.cm channel) s.channels = some c →
      lookupA (s.cm sender.name) s.users = some uid →
      lookupA uid s.heap = some u →
      s.cm u.name.name = s.cm sender.name →
      (∀ p ∈ s.channels, p.1 ≠ s.cm channel → lookupA uid p.2.members = none) →
      (s.channels.map Prod.fst).Nodup →
      (memS (s.cm sender.name) s.monitors = true →
        (handleMessageRegistered env s msg false now).1.users = s.users) ∧
      (memS (s.cm sender.name) s.monitors = false →
        lookupA (s.cm sender.name)
          (handleMessageRegistered env s msg false now).1.users = none)) ∧
    (∀ (env : Env) (s : Session) (msg : Msg) (channel nick : GoStr)
        (c : Channel) (uid : Nat) (u : User) (now : Int),
      msg.command = gs "KICK" →
      msg.params.length = 2 →
      msg.p 0 = channel →
      msg.p 1 = nick →
      s.isMe (s.cm nick) = false →
      lookupA (s.cm channel) s.channels = some c →
      lookupA (s.cm nick) s.users = some uid →
      lookupA uid s.heap = some u →
      s.cm u.name.name = s.cm nick →
      (∀ p ∈ s.channels, p.1 ≠ s.cm channel → lookupA uid p.2.members = none) →
      (s.channels.map Prod.fst).Nodup →
      (memS (s.cm nick) s.monitors = true →
        (handleMessageRegistered env s msg false now).1.users = s.users) ∧
      (memS (s.cm nick) s.monitors = false →
        lookupA (s.cm nick)
          (handleMessageRegistered env s msg false now).1.users = none)) ∧
    (∀ (env : Env) (s : Session) (msg : Msg) (sender : Pfx) (channelCf : GoStr)
        (c : Channel) (uid : Nat) (u : User) (now : Int),
      msg.command = gs "QUIT" →
      msg.sender = some sender →
      lookupA (s.cm sender.name) s.users = some uid →
      lookupA uid s.heap = some u →
      s.cm u.name.name = s.cm sender.name →
      lookupA channelCf s.channels = some c →
      (lookupA uid c.members).isSome = true →
      (∀ p ∈ s.channels, p.1 ≠ channelCf → lookupA uid p.2.members = none) →
      (s.channels.map Prod.fst).Nodup →
      (memS (s.cm sender.name) s.monitors = true →
        (handleMessageRegistered env s msg false now).1.users = s.users) ∧
      (memS (s.cm sender.name) s.monitors = false →
        lookupA (s.cm sender.name)
          (handleMessageRegistered env s msg false now).1.users = none)) := by
  refine ⟨?_, ?_, ?_, ?_⟩
  · intro s uid u hh
    exact ⟨fun hm => cleanUser_monitored s uid u hh hm,
           fun hm hscan => cleanUser_free s uid u hh hm hscan⟩
  · intro env s msg sender channel c uid u now hcmd hsender hlen hchp hnotme hc huser
      hheap hname hlast hnd
    rw [dispatch_part env s msg false now hcmd]
    unfold casePart
    rw [hsender]
    simp only [Msg.parseParams, hlen, lt_self_iff_false, if_false, hchp, Bool.false_eq_true,
      hnotme, hc, huser, typingsDone]
    have := partlike_cleanup s (s.cm channel) (s.cm sender.name) c uid u hheap hname
      hlast hnd
    constructor
    · intro hm
      rw [this.1 hm]
    · intro hm
      rw [this.2 hm]
      exact lookupA_eraseA_self _ _
  · intro env s msg channel nick c uid u now hcmd hlen hchp hnick hnotme hc huser
      hheap hname hlast hnd
    rw [dispatch_kick env s msg false now hcmd]
    unfold caseKick
    simp only [Msg.parseParams, hlen, lt_self_iff_false, if_false, hchp, hnick,
      Bool.false_eq_true, hnotme, hc, huser, typingsDone]
    have := partlike_cleanup s (s.cm channel) (s.cm nick) c uid u hheap hname hlast hnd
    constructor
    · intro hm
      rw [this.1 hm]
    · intro hm
      rw [this.2 hm]
      exact lookupA_eraseA_self _ _
  · intro env s msg sender channelCf c uid u now hcmd hsender huser hheap hname hc
      hmem hlast hnd
    rw [dispatch_quit env s msg false now hcmd]
    unfold caseQuit
    rw [hsender]
    simp only [Bool.false_eq_true, if_false, huser, hheap]
    set u' : User := { u with disconnected := true } with hu'
    set sQ : Session := { s with heap := insertA uid u' s.heap } with hsQ
    have hq := quitLoop_users sQ uid (s.cm sender.name) channelCf c u'
      (lookupA_insertA_self uid u' s.heap)
      (by rw [hsQ, hu']; exact hname)
      hc hmem hlast hnd
    rcases hql : quitLoop uid (s.cm sender.name) sQ sQ.channels with ⟨s3, names⟩
    rw [hql] at hq
    simp only [hql]
    refine ⟨fun hm => hq.1 hm, fun hm => ?_⟩
    have h2 : s3.users = eraseA (s.cm sender.name) s.users := hq.2 hm
    show lookupA (s.cm sender.name) s3.users = none
    rw [h2]
    exact lookupA_eraseA_self _ _

/-- Witness state for C2: user carol (id 5) whose only membership is
channel `#c`, not monitored. -/
def sessionWPart : Session :=
  { sessionW with
    users := [(gs "carol", 5)],
    heap := [(5, ⟨⟨gs "carol", [], []⟩, false, false⟩)],
    channels := [(gs "#c", ⟨gs "#c", [(5, [])], [], none, 0, true⟩)] }

/-- The PART message used by the C2 witness. -/
def msgWPart : Msg := ⟨[], some ⟨gs "carol", [], []⟩, gs "PART", [gs "#c"], none⟩

/-- Witness for C2: carol's PART of her only channel removes her from the
roster (she is not monitored). -/
theorem cleanup_deletes_iff_unmonitored_witness :
    lookupA (sessionWPart.cm (gs "carol"))
      (handleMessageRegistered envW sessionWPart msgWPart false 0).1.users = none :=
  (cleanup_deletes_iff_unmonitored.2.1 envW sessionWPart msgWPart
    ⟨gs "carol", [], []⟩ (gs "#c") ⟨gs "#c", [(5, [])], [], none, 0, true⟩ 5
    ⟨⟨gs "carol", [], []⟩, false, false⟩ 0
    rfl rfl rfl rfl (by decide) (by decide) (by decide) (by decide) (by decide)
    (by decide) (by decide)).2 (by decide)

/-! ## C3: the typing-notification limiter. -/

/-- The `+typing=active` TAGMSG for a target. -/
def typingActiveMsg (target : GoStr) : Msg :=
  (newMsg (gs "TAGMSG") [target]).withTag (gs "+typing") (gs "active")

/-- The `+typing=done` TAGMSG for a target. -/
def typingDoneMsg (target : GoStr) : Msg :=
  (newMsg (gs "TAGMSG") [target]).withTag (gs "+typing") (gs "done")

/-- `Typing` on a target with no stamp always sends. -/
theorem typing_fresh (env : Env) (s : Session) (target : GoStr) (now : Int)
    (hcap : s.hasCapability (gs "message-tags") = true)
    (hfresh : lookupA (s.cm target) s.typingStamps = none) :
    Session.typing env s target now =
      ({ s with typingStamps :=
          insertA (s.cm target) ⟨now, typingActive, 1⟩ s.typingStamps },
       [typingActiveMsg target]) := by
  unfold Session.typing
  simp [hcap, hfresh, typingActiveMsg]

/-- `Typing` within 3 seconds of a sent `active` is suppressed before the
limiter is even consulted. -/
theorem typing_recent (env : Env) (s : Session) (target : GoStr) (now : Int)
    (t : TypingStamp)
    (hcap : s.hasCapability (gs "message-tags") = true)
    (hst : lookupA (s.cm target) s.typingStamps = some t)
    (hty : t.type = typingActive)
    (hlt : now - t.last < 3 * 1000000000) :
    Session.typing env s target now = (s, []) := by
  unfold Session.typing
  simp [hcap, hst, hty, hlt]
  intro h
  exact absurd hlt (by omega)

/-- `TypingStop` on a target with no stamp always sends. -/
theorem typingStop_fresh (env : Env) (s : Session) (target : GoStr) (now : Int)
    (hcap : s.hasCapability (gs "message-tags") = true)
    (hfresh : lookupA (s.cm target) s.typingStamps = none) :
    Session.typingStop env s target now =
      ({ s with typingStamps :=
          insertA (s.cm target) ⟨now, typingDone, 1⟩ s.typingStamps },
       [typingDoneMsg target]) := by
  unfold Session.typingStop
  simp [hcap, hfresh, typingDoneMsg]

/-- `TypingStop` after a sent `done` is suppressed. -/
theorem typingStop_done (env : Env) (s : Session) (target : GoStr) (now : Int)
    (t : TypingStamp)
    (hcap : s.hasCapability (gs "message-tags") = true)
    (hst : lookupA (s.cm target) s.typingStamps = some t)
    (hty : t.type = typingDone) :
    Session.typingStop env s target now = (s, []) := by
  unfold Session.typingStop
  simp [hcap, hst, hty]

/-- C3: starting from a target with no typing stamp, two `Typing` calls
within 3 seconds send exactly one `+typing=active` TAGMSG (the first);
two consecutive `TypingStop` calls send exactly one `+typing=done` TAGMSG
(the first); and with the message-tags capability absent neither call
sends anything or changes the session.  The limiter's decisions (`env`)
are arbitrary and may even differ between the calls. -/
theorem typing_sends_once :
    (∀ (env env' : Env) (s : Session) (target : GoStr) (t1 t2 : Int),
      s.hasCapability (gs "message-tags") = true →
      lookupA (s.cm target) s.typingStamps = none →
      t2 - t1 < 3 * 1000000000 →
      (Session.typing env s target t1).2 = [typingActiveMsg target] ∧
      (Session.typing env' (Session.typing env s target t1).1 target t2).2 = []) ∧
    (∀ (env env' : Env) (s : Session) (target : GoStr) (t1 t2 : Int),
      s.hasCapability (gs "message-tags") = true →
      lookupA (s.cm target) s.typingStamps = none →
      (Session.typingStop env s target t1).2 = [typingDoneMsg target] ∧
      (Session.typingStop env' (Session.typingStop env s target t1).1 target t2).2 = []) ∧
    (∀ (env : Env) (s : Session) (target : GoStr) (now : Int),
      s.hasCapability (gs "message-tags") = false →
      Session.typing env s target now = (s, []) ∧
      Session.typingStop env s target now = (s, [])) := by
  refine ⟨?_, ?_, ?_⟩
  · intro env env' s target t1 t2 hcap hfresh hlt
    rw [typing_fresh env s target t1 hcap hfresh]
    set stamps1 : List (GoStr × TypingStamp) :=
      insertA (s.cm target) ⟨t1, typingActive, 1⟩ s.typingStamps with hstamps1
    set s1 : Session := { s with typingStamps := stamps1 } with hs1
    refine ⟨rfl, ?_⟩
    have hcap1 : s1.hasCapability (gs "message-tags") = true := hcap
    have hst1 : lookupA (s1.cm target) s1.typingStamps =
        some ⟨t1, typingActive, 1⟩ := by
      show lookupA (s.cm target)
        (insertA (s.cm target) (⟨t1, typingActive, 1⟩ : TypingStamp) s.typingStamps) =
        some ⟨t1, typingActive, 1⟩
      exact lookupA_insertA_self _ _ _
    rw [typing_recent env' s1 target t2 ⟨t1, typingActive, 1⟩ hcap1 hst1 rfl hlt]
  · intro env env' s target t1 t2 hcap hfresh
    rw [typingStop_fresh env s target t1 hcap hfresh]
    set stamps1 : List (GoStr × TypingStamp) :=
      insertA (s.cm target) ⟨t1, typingDone, 1⟩ s.typingStamps with hstamps1
    set s1 : Session := { s with typingStamps := stamps1 } with hs1
    refine ⟨rfl, ?_⟩
    have hcap1 : s1.hasCapability (gs "message-tags") = true := hcap
    have hst1 : lookupA (s1.cm target) s1.typingStamps =
        some ⟨t1, typingDone, 1⟩ := by
      show lookupA (s.cm target)
        (insertA (s.cm target) (⟨t1, typingDone, 1⟩ : TypingStamp) s.typingStamps) =
        some ⟨t1, typingDone, 1⟩
      exact lookupA_insertA_self _ _ _
    rw [typingStop_done env' s1 target t2 ⟨t1, typingDone, 1⟩ hcap1 hst1 rfl]
  · intro env s target now hcap
    constructor
    · unfold Session.typing
      simp [hcap]
    · unfold Session.typingStop
      simp [hcap]

/-- Witness for C3 with the always-allow limiter, target `#w`, times 0
and 2 seconds, and a session with message-tags enabled (plus the no-cap
part at the default session). -/
theorem typing_sends_once_witness :
    ((Session.typing envW
        { sessionW with enabledCaps := [gs "message-tags"] } (gs "#w") 0).2 =
      [typingActiveMsg (gs "#w")] ∧
     (Session.typing envW
        (Session.typing envW
          { sessionW with enabledCaps := [gs "message-tags"] } (gs "#w") 0).1
        (gs "#w") 2000000000).2 = []) ∧
    ((Session.typingStop envW
        { sessionW with enabledCaps := [gs "message-tags"] } (gs "#w") 0).2 =
      [typingDoneMsg (gs "#w")] ∧
     (Session.typingStop envW
        (Session.typingStop envW
          { sessionW with enabledCaps := [gs "message-tags"] } (gs "#w") 0).1
        (gs "#w") 7000000000).2 = []) ∧
    (Session.typing envW sessionW (gs "#w") 0 = (sessionW, []) ∧
     Session.typingStop envW sessionW (gs "#w") 0 = (sessionW, [])) :=
  ⟨typing_sends_once.1 envW envW _ (gs "#w") 0 2000000000 (by decide) (by decide)
     (by decide),
   typing_sends_once.2.1 envW envW _ (gs "#w") 0 7000000000 (by decide) (by decide),
   typing_sends_once.2.2 envW sessionW (gs "#w") 0 (by decide)⟩

/-! ## C5: one in-flight CHATHISTORY request per target. -/

/-- A `BATCH +id chathistory target` open message. -/
def batchOpen (id target : GoStr) : Msg :=
  ⟨[], none, gs "BATCH", [43 :: id, gs "chathistory", target], none⟩

/-- A `BATCH -id` close message. -/
def batchClose (id : GoStr) : Msg :=
  ⟨[], none, gs "BATCH", [45 :: id], none⟩

/-- `doRequest` when the capability is on and the target not in flight. -/
theorem doRequest_sends (s : Session) (r : HistoryRequest)
    (hcap : s.hasCapability (gs "draft/chathistory") = true)
    (hfree : memS (s.cm r.target) s.chReqs = false) :
    doRequest s r =
      ({ s with chReqs := insertS (s.cm r.target) s.chReqs },
       [newMsg (gs "CHATHISTORY")
         ([r.command] ++ (if r.target ≠ [] then [r.target] else []) ++
          r.bounds ++ [goItoa r.limit])]) := by
  unfold doRequest
  simp [hcap, hfree]

/-- `doRequest` when a request for the casemapped target is in flight. -/
theorem doRequest_suppressed (s : Session) (r : HistoryRequest)
    (hbusy : memS (s.cm r.target) s.chReqs = true) :
    doRequest s r = (s, []) := by
  unfold doRequest
  by_cases hcap : s.hasCapability (gs "draft/chathistory") <;> simp [hcap, hbusy]

/-- Opening a `chathistory` batch records the accumulator under the id. -/
theorem batch_open_eq (env : Env) (s : Session) (id target : GoStr) (now : Int) :
    handleMessageRegistered env s (batchOpen id target) false now =
      ({ s with chBatches := insertA id ⟨target, []⟩ s.chBatches }, [], .ok none) := by
  rw [dispatch_batch env s (batchOpen id target) false now rfl]
  rfl

/-- Closing a known `chathistory` batch pops it, clears the in-flight
guard for its target, and returns the aggregate event. -/
theorem batch_close_eq (env : Env) (s : Session) (id : GoStr) (b : HistoryAcc)
    (now : Int) (hlk : lookupA id s.chBatches = some b) :
    handleMessageRegistered env s (batchClose id) false now =
      ({ s with chBatches := eraseA id s.chBatches,
                chReqs := eraseS (s.cm b.target) s.chReqs },
       [], .ok (some (.history b.target b.messages))) := by
  rw [dispatch_batch env s (batchClose id) false now rfl]
  unfold caseBatch
  simp only [batchClose, Msg.parseParams, Msg.p]
  norm_num
  rw [hlk]

/-- C5: with draft/chathistory enabled, a second request for the same
casemapped target while the first is in flight sends nothing and changes
nothing; handling the BATCH close for that target's batch removes the
target from the in-flight set, after which a request for the target sends
a CHATHISTORY command again. -/
theorem chathistory_one_inflight (env : Env) (s : Session)
    (r r' r'' : HistoryRequest) (id : GoStr) (now now' : Int)
    (hcap : s.hasCapability (gs "draft/chathistory") = true)
    (hfree : memS (s.cm r.target) s.chReqs = false)
    (hr' : s.cm r'.target = s.cm r.target)
    (hr'' : s.cm r''.target = s.cm r.target) :
    ((doRequest s r).2.map Msg.command) = [gs "CHATHISTORY"] ∧
    doRequest (doRequest s r).1 r' = ((doRequest s r).1, []) ∧
    memS (s.cm r.target)
      ((handleMessageRegistered env
        (handleMessageRegistered env (doRequest s r).1
          (batchOpen id r.target) false now).1
        (batchClose id) false now').1.chReqs) = false ∧
    (((doRequest
        (handleMessageRegistered env
          (handleMessageRegistered env (doRequest s r).1
            (batchOpen id r.target) false now).1
          (batchClose id) false now').1 r'').2.map Msg.command) =
      [gs "CHATHISTORY"]) := by
  have h1 := doRequest_sends s r hcap hfree
  have hbusy1 : memS (Session.cm { s with chReqs := insertS (s.cm r.target) s.chReqs }
      r'.target) ({ s with chReqs := insertS (s.cm r.target) s.chReqs } : Session).chReqs =
      true := by
    show memS (s.cm r'.target) (insertS (s.cm r.target) s.chReqs) = true
    rw [hr']
    exact memS_insertS_self _ _
  have h2 := doRequest_suppressed _ r' hbusy1
  have hopen := batch_open_eq env
    { s with chReqs := insertS (s.cm r.target) s.chReqs } id r.target now
  have hlk2 : lookupA id
      ({ s with chReqs := insertS (s.cm r.target) s.chReqs,
                chBatches := insertA id ⟨r.target, []⟩ s.chBatches } : Session).chBatches =
      some ⟨r.target, []⟩ := lookupA_insertA_self _ _ _
  have hclose := batch_close_eq env
    { s with chReqs := insertS (s.cm r.target) s.chReqs,
             chBatches := insertA id ⟨r.target, []⟩ s.chBatches }
    id ⟨r.target, []⟩ now' hlk2
  dsimp only at hclose
  have hcap3 : Session.hasCapability
      { s with chReqs := eraseS (s.cm r.target) (insertS (s.cm r.target) s.chReqs),
               chBatches := eraseA id (insertA id ⟨r.target, []⟩ s.chBatches) }
      (gs "draft/chathistory") = true := hcap
  have hfree3 : memS (Session.cm
      { s with chReqs := eraseS (s.cm r.target) (insertS (s.cm r.target) s.chReqs),
               chBatches := eraseA id (insertA id ⟨r.target, []⟩ s.chBatches) } r''.target)
      ({ s with chReqs := eraseS (s.cm r.target) (insertS (s.cm r.target) s.chReqs),
                chBatches := eraseA id (insertA id ⟨r.target, []⟩ s.chBatches) } :
        Session).chReqs = false := by
    show memS (s.cm r''.target)
      (eraseS (s.cm r.target) (insertS (s.cm r.target) s.chReqs)) = false
    rw [hr'']
    exact memS_eraseS_self _ _
  have h3 := doRequest_sends _ r'' hcap3 hfree3
  refine ⟨by rw [h1]; rfl, ?_, ?_, ?_⟩
  · rw [h1]
    exact h2
  · rw [h1]
    dsimp only
    rw [hopen]
    dsimp only
    have hcomm : ({ s with chReqs := insertS (s.cm r.target) s.chReqs, chBatches := insertA id ⟨r.target, []⟩ s.chBatches } : Session) = { s with chBatches := insertA id ⟨r.target, []⟩ s.chBatches, chReqs := insertS (s.cm r.target) s.chReqs } := rfl
    rw [hcomm] at hclose
    rw [hclose]
    dsimp only
    exact memS_eraseS_self _ _
  · rw [h1]
    dsimp only
    rw [hopen]
    dsimp only
    have hcomm : ({ s with chReqs := insertS (s.cm r.target) s.chReqs, chBatches := insertA id ⟨r.target, []⟩ s.chBatches } : Session) = { s with chBatches := insertA id ⟨r.target, []⟩ s.chBatches, chReqs := insertS (s.cm r.target) s.chReqs } := rfl
    rw [hcomm] at hclose
    rw [hclose]
    dsimp only
    have hcomm2 : ({ s with chReqs := eraseS (s.cm r.target) (insertS (s.cm r.target) s.chReqs), chBatches := eraseA id (insertA id ⟨r.target, []⟩ s.chBatches) } : Session) = { s with chBatches := eraseA id (insertA id ⟨r.target, []⟩ s.chBatches), chReqs := eraseS (s.cm r.target) (insertS (s.cm r.target) s.chReqs) } := rfl
    rw [hcomm2] at h3
    dsimp only [Session.cm] at h3 ⊢
    rw [h3]
    rfl

/-- Witness for C5: target `#h`, batch id `b1`, default session with the
capability enabled. -/
theorem chathistory_one_inflight_witness :
    (((doRequest { sessionW with enabledCaps := [gs "draft/chathistory"] }
        ⟨gs "#h", gs "BEFORE", [], 50⟩).2.map Msg.command) = [gs "CHATHISTORY"]) ∧
    doRequest (doRequest { sessionW with enabledCaps := [gs "draft/chathistory"] }
        ⟨gs "#h", gs "BEFORE", [], 50⟩).1 ⟨gs "#h", gs "AFTER", [], 50⟩ =
      ((doRequest { sessionW with enabledCaps := [gs "draft/chathistory"] }
        ⟨gs "#h", gs "BEFORE", [], 50⟩).1, []) ∧
    memS ({ sessionW with enabledCaps := [gs "draft/chathistory"] }.cm (gs "#h"))
      ((handleMessageRegistered envW
        (handleMessageRegistered envW
          (doRequest { sessionW with enabledCaps := [gs "draft/chathistory"] }
            ⟨gs "#h", gs "BEFORE", [], 50⟩).1
          (batchOpen (gs "b1") (gs "#h")) false 0).1
        (batchClose (gs "b1")) false 1).1.chReqs) = false ∧
    (((doRequest
        (handleMessageRegistered envW
          (handleMessageRegistered envW
            (doRequest { sessionW with enabledCaps := [gs "draft/chathistory"] }
              ⟨gs "#h", gs "BEFORE", [], 50⟩).1
            (batchOpen (gs "b1") (gs "#h")) false 0).1
          (batchClose (gs "b1")) false 1).1 ⟨gs "#h", gs "BEFORE", [], 9⟩).2.map
        Msg.command) = [gs "CHATHISTORY"]) :=
  chathistory_one_inflight envW { sessionW with enabledCaps := [gs "draft/chathistory"] }
    ⟨gs "#h", gs "BEFORE", [], 50⟩ ⟨gs "#h", gs "AFTER", [], 50⟩
    ⟨gs "#h", gs "BEFORE", [], 9⟩ (gs "b1") 0 1 (by decide) (by decide) rfl rfl

/-! ## C7: MONITOR online/offline numerics. -/

/-- The state after creating a user record for an absent monitored
target. -/
def monCreate (s : Session) (nickCf : GoStr) (p : Pfx) : Session :=
  { s with users := insertA nickCf s.nextId s.users,
           heap := insertA s.nextId ⟨p, false, false⟩ s.heap,
           nextId := s.nextId + 1 }

theorem monLoop_nil (offline : Bool) (s : Session) :
    monLoop offline s [] = (s, none) := rfl

theorem monLoop_unparseable (offline : Bool) (s : Session) (t : GoStr)
    (rest : List GoStr) (hp : parseSender t = none) :
    monLoop offline s (t :: rest) = monLoop offline s rest := by
  conv_lhs => unfold monLoop
  rw [hp]

theorem monLoop_unmonitored (offline : Bool) (s : Session) (t : GoStr)
    (rest : List GoStr) (p : Pfx) (hp : parseSender t = some p)
    (hm : memS (s.cm p.name) s.monitors = false) :
    monLoop offline s (t :: rest) = monLoop offline s rest := by
  conv_lhs => unfold monLoop
  rw [hp]
  dsimp only
  simp [hm]

theorem monLoop_existing_match (offline : Bool) (s : Session) (t : GoStr)
    (rest : List GoStr) (p : Pfx) (uid : Nat) (u : User)
    (hp : parseSender t = some p)
    (hm : memS (s.cm p.name) s.monitors = true)
    (hu : lookupA (s.cm p.name) s.users = some uid)
    (hh : lookupA uid s.heap = some u)
    (hd : u.disconnected = offline) :
    monLoop offline s (t :: rest) = monLoop offline s rest := by
  conv_lhs => unfold monLoop
  rw [hp]
  dsimp only
  cases offline <;> simp [hm, hu, hh, hd]

theorem monLoop_existing_dangling (offline : Bool) (s : Session) (t : GoStr)
    (rest : List GoStr) (p : Pfx) (uid : Nat)
    (hp : parseSender t = some p)
    (hm : memS (s.cm p.name) s.monitors = true)
    (hu : lookupA (s.cm p.name) s.users = some uid)
    (hh : lookupA uid s.heap = none) :
    monLoop offline s (t :: rest) = monLoop offline s rest := by
  conv_lhs => unfold monLoop
  rw [hp]
  dsimp only
  simp [hm, hu, hh]

theorem monLoop_transition (offline : Bool) (s : Session) (t : GoStr)
    (rest : List GoStr) (p : Pfx) (uid : Nat) (u : User)
    (hp : parseSender t = some p)
    (hm : memS (s.cm p.name) s.monitors = true)
    (hu : lookupA (s.cm p.name) s.users = some uid)
    (hh : lookupA uid s.heap = some u)
    (hd : u.disconnected = !offline) :
    monLoop offline s (t :: rest) =
      ({ s with heap := insertA uid { u with disconnected := offline } s.heap },
       some (if offline then Event.userOffline u.name.name
             else Event.userOnline u.name.name)) := by
  conv_lhs => unfold monLoop
  rw [hp]
  dsimp only
  cases offline <;> simp_all [hm, hu, hh]

theorem monLoop_absent_online (s : Session) (t : GoStr)
    (rest : List GoStr) (p : Pfx)
    (hp : parseSender t = some p)
    (hm : memS (s.cm p.name) s.monitors = true)
    (hu : lookupA (s.cm p.name) s.users = none) :
    monLoop false s (t :: rest) = monLoop false (monCreate s (s.cm p.name) p) rest := by
  conv_lhs => unfold monLoop
  rw [hp]
  dsimp only
  simp [hm, hu, monCreate, lookupA_insertA_self]

theorem monLoop_absent_offline (s : Session) (t : GoStr)
    (rest : List GoStr) (p : Pfx)
    (hp : parseSender t = some p)
    (hm : memS (s.cm p.name) s.monitors = true)
    (hu : lookupA (s.cm p.name) s.users = none) :
    monLoop true s (t :: rest) =
      ({ monCreate s (s.cm p.name) p with
          heap := insertA s.nextId ⟨p, false, true⟩
            (insertA s.nextId ⟨p, false, false⟩ s.heap) },
       some (.userOffline p.name)) := by
  conv_lhs => unfold monLoop
  rw [hp]
  dsimp only
  simp [hm, hu, monCreate, lookupA_insertA_self]

/-- Well-formedness of the user heap: allocated ids are below `nextId`
and every roster entry points at a live heap record.  `NewSession` starts
empty and every allocation in the code maintains this. -/
def MonWF (s : Session) : Prop :=
  (∀ uid u, lookupA uid s.heap = some u → uid < s.nextId) ∧
  (∀ k uid, lookupA k s.users = some uid → (lookupA uid s.heap).isSome = true)

theorem monWF_create (s : Session) (nickCf : GoStr) (p : Pfx) (hwf : MonWF s) :
    MonWF (monCreate s nickCf p) := by
  constructor
  · intro uid u hh
    show uid < s.nextId + 1
    by_cases he : uid = s.nextId
    · omega
    · rw [show lookupA uid (monCreate s nickCf p).heap =
          lookupA uid s.heap from lookupA_insertA_ne _ _ _ _ (Ne.symm he)] at hh
      have := hwf.1 uid u hh
      omega
  · intro k uid hk
    by_cases hke : k = nickCf
    · have hk2 : lookupA k (monCreate s nickCf p).users = some s.nextId := by
        show lookupA k (insertA nickCf s.nextId s.users) = some s.nextId
        rw [hke]
        exact lookupA_insertA_self _ _ _
      rw [hk2] at hk
      cases Option.some.inj hk
      rw [show lookupA s.nextId (monCreate s nickCf p).heap =
          some ⟨p, false, false⟩ from lookupA_insertA_self _ _ _]
      rfl
    · rw [show lookupA k (monCreate s nickCf p).users =
          lookupA k s.users from lookupA_insertA_ne _ _ _ _ (Ne.symm hke)] at hk
      have hiso := hwf.2 k uid hk
      obtain ⟨u, hu2⟩ := Option.isSome_iff_exists.mp hiso
      have hlt := hwf.1 uid u hu2
      rw [show lookupA uid (monCreate s nickCf p).heap =
          lookupA uid s.heap from lookupA_insertA_ne _ _ _ _ (by omega)]
      exact hiso

/-- In a run of the MONITOR loop that emits no event, the only mutations
are creations of absent records: well-formedness, existing roster entries
and existing heap records are all preserved. -/
theorem monLoop_none_preserves (offline : Bool) :
    ∀ (targets : List GoStr) (s : Session),
      MonWF s →
      (monLoop offline s targets).2 = none →
      MonWF (monLoop offline s targets).1 ∧
      (∀ k uid, lookupA k s.users = some uid →
        lookupA k (monLoop offline s targets).1.users = some uid) ∧
      (∀ uid u, lookupA uid s.heap = some u →
        lookupA uid (monLoop offline s targets).1.heap = some u) := by
  intro targets
  induction targets with
  | nil =>
    intro s hwf _
    exact ⟨hwf, fun k uid h => h, fun uid u h => h⟩
  | cons t rest ih =>
    intro s hwf hnone
    cases hp : parseSender t with
    | none =>
      rw [monLoop_unparseable offline s t rest hp] at hnone ⊢
      exact ih s hwf hnone
    | some p =>
      cases hm : memS (s.cm p.name) s.monitors with
      | false =>
        rw [monLoop_unmonitored offline s t rest p hp hm] at hnone ⊢
        exact ih s hwf hnone
      | true =>
        cases hu : lookupA (s.cm p.name) s.users with
        | some uid =>
          cases hh : lookupA uid s.heap with
          | none =>
            rw [monLoop_existing_dangling offline s t rest p uid hp hm hu hh]
              at hnone ⊢
            exact ih s hwf hnone
          | some u =>
            by_cases hd : u.disconnected = offline
            · rw [monLoop_existing_match offline s t rest p uid u hp hm hu hh hd]
                at hnone ⊢
              exact ih s hwf hnone
            · rw [monLoop_transition offline s t rest p uid u hp hm hu hh
                (by cases offline <;> simp_all)] at hnone
              simp at hnone
        | none =>
          cases offline with
          | false =>
            rw [monLoop_absent_online s t rest p hp hm hu] at hnone ⊢
            have hwf' := monWF_create s (s.cm p.name) p hwf
            obtain ⟨hwfr, husers, hheap⟩ := ih (monCreate s (s.cm p.name) p) hwf' hnone
            refine ⟨hwfr, ?_, ?_⟩
            · intro k uid hk
              refine husers k uid ?_
              show lookupA k (insertA (s.cm p.name) s.nextId s.users) = some uid
              have hkne : k ≠ s.cm p.name := fun he => by rw [he, hu] at hk; cases hk
              rw [lookupA_insertA_ne _ _ _ _ (Ne.symm hkne)]
              exact hk
            · intro uid u hh2
              refine hheap uid u ?_
              show lookupA uid (insertA s.nextId ⟨p, false, false⟩ s.heap) = some u
              have : uid < s.nextId := hwf.1 uid u hh2
              rw [lookupA_insertA_ne _ _ _ _ (by omega)]
              exact hh2
          | true =>
            rw [monLoop_absent_offline s t rest p hp hm hu] at hnone
            simp at hnone

/-- In a run of the MONITOR loop that emits no event, every monitored
parseable target ends with a roster record whose `disconnected` flag
matches the announced state. -/
theorem monLoop_none_flags (offline : Bool) :
    ∀ (targets : List GoStr) (s : Session),
      MonWF s →
      (monLoop offline s targets).2 = none →
      ∀ t ∈ targets, ∀ p, parseSender t = some p →
        memS (s.cm p.name) s.monitors = true →
        ∃ uid u,
          lookupA (s.cm p.name) (monLoop offline s targets).1.users = some uid ∧
          lookupA uid (monLoop offline s targets).1.heap = some u ∧
          u.disconnected = offline := by
  intro targets
  induction targets with
  | nil =>
    intro s _ _ t ht
    cases ht
  | cons t rest ih =>
    intro s hwf hnone t' ht' p' hp' hm'
    cases hp : parseSender t with
    | none =>
      rw [monLoop_unparseable offline s t rest hp] at hnone ⊢
      rcases List.mem_cons.mp ht' with he | hr
      · subst he
        rw [hp] at hp'
        cases hp'
      · exact ih s hwf hnone t' hr p' hp' hm'
    | some p =>
      cases hm : memS (s.cm p.name) s.monitors with
      | false =>
        rw [monLoop_unmonitored offline s t rest p hp hm] at hnone ⊢
        rcases List.mem_cons.mp ht' with he | hr
        · subst he
          rw [hp] at hp'
          cases Option.some.inj hp'
          rw [hm] at hm'
          cases hm'
        · exact ih s hwf hnone t' hr p' hp' hm'
      | true =>
        cases hu : lookupA (s.cm p.name) s.users with
        | some uid =>
          cases hh : lookupA uid s.heap with
          | none =>
            have := hwf.2 (s.cm p.name) uid hu
            rw [hh] at this
            cases this
          | some u =>
            by_cases hd : u.disconnected = offline
            · rw [monLoop_existing_match offline s t rest p uid u hp hm hu hh hd]
                at hnone ⊢
              rcases List.mem_cons.mp ht' with he | hr
              · subst he
                rw [hp] at hp'
                cases Option.some.inj hp'
                obtain ⟨_, husers, hheap⟩ := monLoop_none_preserves offline rest s hwf hnone
                exact ⟨uid, u, husers _ uid hu, hheap uid u hh, hd⟩
              · exact ih s hwf hnone t' hr p' hp' hm'
            · rw [monLoop_transition offline s t rest p uid u hp hm hu hh
                (by cases offline <;> simp_all)] at hnone
              simp at hnone
        | none =>
          cases offline with
          | false =>
            rw [monLoop_absent_online s t rest p hp hm hu] at hnone ⊢
            have hwf' := monWF_create s (s.cm p.name) p hwf
            rcases List.mem_cons.mp ht' with he | hr
            · subst he
              rw [hp] at hp'
              obtain rfl : p = p' := Option.some.inj hp'
              obtain ⟨_, husers, hheap⟩ :=
                monLoop_none_preserves false rest (monCreate s (s.cm p.name) p) hwf' hnone
              refine ⟨s.nextId, ⟨p, false, false⟩, ?_, ?_, rfl⟩
              · exact husers _ _ (lookupA_insertA_self _ _ _)
              · exact hheap _ _ (lookupA_insertA_self _ _ _)
            · exact ih (monCreate s (s.cm p.name) p) hwf' hnone t' hr p' hp' hm'
          | true =>
            rw [monLoop_absent_offline s t rest p hp hm hu] at hnone
            simp at hnone

/-- The MONITOR loop stops at the first actual transition: when an event
is returned, the whole run is equivalent to processing only the targets
up to and including the transitioning one. -/
theorem monLoop_stops_at_first (offline : Bool) :
    ∀ (targets : List GoStr) (s : Session) (e : Event),
      (monLoop offline s targets).2 = some e →
      ∃ pre t post, targets = pre ++ t :: post ∧
        monLoop offline s targets = monLoop offline s (pre ++ [t]) := by
  intro targets
  induction targets with
  | nil =>
    intro s e he
    cases he
  | cons t rest ih =>
    intro s e he
    cases hp : parseSender t with
    | none =>
      rw [monLoop_unparseable offline s t rest hp] at he
      obtain ⟨pre, t', post, heq, hres⟩ := ih s e he
      refine ⟨t :: pre, t', post, by rw [heq, List.cons_append], ?_⟩
      rw [List.cons_append,
        monLoop_unparseable offline s t (pre ++ [t']) hp,
        monLoop_unparseable offline s t rest hp, hres]
    | some p =>
      cases hm : memS (s.cm p.name) s.monitors with
      | false =>
        rw [monLoop_unmonitored offline s t rest p hp hm] at he
        obtain ⟨pre, t', post, heq, hres⟩ := ih s e he
        refine ⟨t :: pre, t', post, by rw [heq, List.cons_append], ?_⟩
        rw [List.cons_append,
          monLoop_unmonitored offline s t (pre ++ [t']) p hp hm,
          monLoop_unmonitored offline s t rest p hp hm, hres]
      | true =>
        cases hu : lookupA (s.cm p.name) s.users with
        | some uid =>
          cases hh : lookupA uid s.heap with
          | none =>
            rw [monLoop_existing_dangling offline s t rest p uid hp hm hu hh] at he
            obtain ⟨pre, t', post, heq, hres⟩ := ih s e he
            refine ⟨t :: pre, t', post, by rw [heq, List.cons_append], ?_⟩
            rw [List.cons_append,
              monLoop_existing_dangling offline s t (pre ++ [t']) p uid hp hm hu hh,
              monLoop_existing_dangling offline s t rest p uid hp hm hu hh, hres]
          | some u =>
            by_cases hd : u.disconnected = offline
            · rw [monLoop_existing_match offline s t rest p uid u hp hm hu hh hd] at he
              obtain ⟨pre, t', post, heq, hres⟩ := ih s e he
              refine ⟨t :: pre, t', post, by rw [heq, List.cons_append], ?_⟩
              rw [List.cons_append,
                monLoop_existing_match offline s t (pre ++ [t']) p uid u hp hm hu hh hd,
                monLoop_existing_match offline s t rest p uid u hp hm hu hh hd, hres]
            · have hd' : u.disconnected = !offline := by cases offline <;> simp_all
              refine ⟨[], t, rest, rfl, ?_⟩
              rw [monLoop_transition offline s t rest p uid u hp hm hu hh hd',
                show ([] : List GoStr) ++ [t] = [t] from rfl,
                monLoop_transition offline s t [] p uid u hp hm hu hh hd']
        | none =>
          cases offline with
          | false =>
            rw [monLoop_absent_online s t rest p hp hm hu] at he
            obtain ⟨pre, t', post, heq, hres⟩ := ih (monCreate s (s.cm p.name) p) e he
            refine ⟨t :: pre, t', post, by rw [heq, List.cons_append], ?_⟩
            rw [List.cons_append,
              monLoop_absent_online s t (pre ++ [t']) p hp hm hu,
              monLoop_absent_online s t rest p hp hm hu, hres]
          | true =>
            refine ⟨[], t, rest, rfl, ?_⟩
            rw [monLoop_absent_offline s t rest p hp hm hu,
              show ([] : List GoStr) ++ [t] = [t] from rfl,
              monLoop_absent_offline s t [] p hp hm hu]

/-- The MONITOR numeric handler is the loop over the comma-separated
targets of `Params[1]`. -/
theorem caseMon_eq (offline : Bool) (s : Session) (msg : Msg) (p1 : GoStr)
    (h : msg.params.get? 1 = some p1) :
    caseMon offline s msg =
      ((monLoop offline s (goSplitAll 44 p1)).1, [],
       .ok (monLoop offline s (goSplitAll 44 p1)).2) := by
  unfold caseMon
  rw [h]

/-- When every monitored target of the list already has its announced
state, the MONITOR loop changes nothing and emits nothing (idempotent
re-delivery). -/
theorem monLoop_all_match (offline : Bool) :
    ∀ (targets : List GoStr) (s : Session),
      (∀ t ∈ targets, ∀ p, parseSender t = some p →
        memS (s.cm p.name) s.monitors = true →
        ∃ uid u, lookupA (s.cm p.name) s.users = some uid ∧
          lookupA uid s.heap = some u ∧ u.disconnected = offline) →
      monLoop offline s targets = (s, none) := by
  intro targets
  induction targets with
  | nil => intro s _; rfl
  | cons t rest ih =>
    intro s hall
    have hrest : ∀ t' ∈ rest, ∀ p, parseSender t' = some p →
        memS (s.cm p.name) s.monitors = true →
        ∃ uid u, lookupA (s.cm p.name) s.users = some uid ∧
          lookupA uid s.heap = some u ∧ u.disconnected = offline :=
      fun t' ht' => hall t' (List.mem_cons_of_mem _ ht')
    cases hp : parseSender t with
    | none => rw [monLoop_unparseable offline s t rest hp]; exact ih s hrest
    | some p =>
      cases hm : memS (s.cm p.name) s.monitors with
      | false => rw [monLoop_unmonitored offline s t rest p hp hm]; exact ih s hrest
      | true =>
        obtain ⟨uid, u, hu, hh, hd⟩ := hall t (List.mem_cons_self _ _) p hp hm
        rw [monLoop_existing_match offline s t rest p uid u hp hm hu hh hd]
        exact ih s hrest

/-- C7 counterexample: with alice and bob both monitored and both marked
disconnected, `RPL_MONONLINE` for `alice,bob` flips and reports only
alice; bob's record still says disconnected although the numeric
announced it online, contradicting the claim's "for each comma-separated
target ... its Disconnected flag is set to match the announced state". -/
def sessionWMon : Session :=
  { sessionW with
    monitors := [gs "alice", gs "bob"],
    users := [(gs "alice", 0), (gs "bob", 1)],
    heap := [(0, ⟨⟨gs "alice", [], []⟩, false, true⟩),
             (1, ⟨⟨gs "bob", [], []⟩, false, true⟩)],
    nextId := 2 }

/-- The `RPL_MONONLINE` message of the C7 counterexample. -/
def msgWMon : Msg := ⟨[], none, gs "730", [gs "me", gs "alice,bob"], none⟩

/-- C7 counterexample theorem: bob is monitored and announced online,
yet after the numeric is handled its record is still disconnected (the
handler returned at alice's transition). -/
theorem mononline_skips_later_targets :
    memS (sessionWMon.cm (gs "bob")) sessionWMon.monitors = true ∧
    (match (handleMessageRegistered envW sessionWMon msgWMon false 0).2.2 with
     | HOut.ok (some (Event.userOnline n)) => some n
     | _ => none) = some (gs "alice") ∧
    (lookupA 1 (handleMessageRegistered envW sessionWMon msgWMon false 0).1.heap).map
      User.disconnected = some true :=
  ⟨by decide, by decide, by decide⟩

/-- C7 (amended): the MONITOR online/offline numerics run the loop over
the comma-separated targets of `Params[1]` in order, and for each
monitored target processed, a record is created if absent and its
`disconnected` flag set to match the announced state, with an event
exactly on an actual transition — at which point processing stops,
leaving the remaining targets of that numeric untouched.  A run that
emits no event leaves every monitored target matching the announced
state, and re-delivering a state that already holds changes nothing and
emits nothing. -/
theorem monitor_numeric_first_transition :
    (∀ (env : Env) (s : Session) (msg : Msg) (p1 : GoStr) (now : Int),
      msg.command = gs "730" → msg.params.get? 1 = some p1 →
      handleMessageRegistered env s msg false now =
        ((monLoop false s (goSplitAll 44 p1)).1, [],
         .ok (monLoop false s (goSplitAll 44 p1)).2)) ∧
    (∀ (env : Env) (s : Session) (msg : Msg) (p1 : GoStr) (now : Int),
      msg.command = gs "731" → msg.params.get? 1 = some p1 →
      handleMessageRegistered env s msg false now =
        ((monLoop true s (goSplitAll 44 p1)).1, [],
         .ok (monLoop true s (goSplitAll 44 p1)).2)) ∧
    (∀ (offline : Bool) (s : Session) (t : GoStr) (rest : List GoStr) (p : Pfx)
        (uid : Nat) (u : User),
      parseSender t = some p →
      memS (s.cm p.name) s.monitors = true →
      lookupA (s.cm p.name) s.users = some uid →
      lookupA uid s.heap = some u →
      u.disconnected = !offline →
      monLoop offline s (t :: rest) =
        ({ s with heap := insertA uid { u with disconnected := offline } s.heap },
         some (if offline then Event.userOffline u.name.name
               else Event.userOnline u.name.name))) ∧
    (∀ (s : Session) (t : GoStr) (rest : List GoStr) (p : Pfx),
      parseSender t = some p →
      memS (s.cm p.name) s.monitors = true →
      lookupA (s.cm p.name) s.users = none →
      monLoop false s (t :: rest) =
        monLoop false (monCreate s (s.cm p.name) p) rest) ∧
    (∀ (s : Session) (t : GoStr) (rest : List GoStr) (p : Pfx),
      parseSender t = some p →
      memS (s.cm p.name) s.monitors = true →
      lookupA (s.cm p.name) s.users = none →
      monLoop true s (t :: rest) =
        ({ monCreate s (s.cm p.name) p with
            heap := insertA s.nextId ⟨p, false, true⟩
              (insertA s.nextId ⟨p, false, false⟩ s.heap) },
         some (.userOffline p.name))) ∧
    (∀ (offline : Bool) (targets : List GoStr) (s : Session),
      MonWF s →
      (monLoop offline s targets).2 = none →
      ∀ t ∈ targets, ∀ p, parseSender t = some p →
        memS (s.cm p.name) s.monitors = true →
        ∃ uid u,
          lookupA (s.cm p.name) (monLoop offline s targets).1.users = some uid ∧
          lookupA uid (monLoop offline s targets).1.heap = some u ∧
          u.disconnected = offline) ∧
    (∀ (offline : Bool) (targets : List GoStr) (s : Session) (e : Event),
      (monLoop offline s targets).2 = some e →
      ∃ pre t post, targets = pre ++ t :: post ∧
        monLoop offline s targets = monLoop offline s (pre ++ [t])) ∧
    (∀ (offline : Bool) (targets : List GoStr) (s : Session),
      (∀ t ∈ targets, ∀ p, parseSender t = some p →
        memS (s.cm p.name) s.monitors = true →
        ∃ uid u, lookupA (s.cm p.name) s.users = some uid ∧
          lookupA uid s.heap = some u ∧ u.disconnected = offline) →
      monLoop offline s targets = (s, none)) := by
  refine ⟨?_, ?_, ?_, ?_, ?_, ?_, ?_, ?_⟩
  · intro env s msg p1 now hcmd hp1
    rw [dispatch_mononline env s msg false now hcmd]
    exact caseMon_eq false s msg p1 hp1
  · intro env s msg p1 now hcmd hp1
    rw [dispatch_monoffline env s msg false now hcmd]
    exact caseMon_eq true s msg p1 hp1
  · intro offline s t rest p uid u hp hm hu hh hd
    exact monLoop_transition offline s t rest p uid u hp hm hu hh hd
  · intro s t rest p hp hm hu
    exact monLoop_absent_online s t rest p hp hm hu
  · intro s t rest p hp hm hu
    exact monLoop_absent_offline s t rest p hp hm hu
  · exact monLoop_none_flags
  · exact monLoop_stops_at_first
  · exact monLoop_all_match

/-- Witness for C7 at the counterexample state: handling the 730 numeric
equals the loop over `["alice","bob"]`, and re-delivering the online
state to a state where both alice and bob are already connected changes
nothing. -/
theorem monitor_numeric_first_transition_witness :
    (handleMessageRegistered envW sessionWMon msgWMon false 0 =
      ((monLoop false sessionWMon (goSplitAll 44 (gs "alice,bob"))).1, [],
       .ok (monLoop false sessionWMon (goSplitAll 44 (gs "alice,bob"))).2)) ∧
    monLoop false
      { sessionWMon with
        heap := [(0, ⟨⟨gs "alice", [], []⟩, false, false⟩),
                 (1, ⟨⟨gs "bob", [], []⟩, false, false⟩)] }
      [gs "alice"] =
      ({ sessionWMon with
         heap := [(0, ⟨⟨gs "alice", [], []⟩, false, false⟩),
                  (1, ⟨⟨gs "bob", [], []⟩, false, false⟩)] }, none) :=
  ⟨monitor_numeric_first_transition.1 envW sessionWMon msgWMon (gs "alice,bob") 0
     rfl rfl,
   monitor_numeric_first_transition.2.2.2.2.2.2.2 false [gs "alice"] _ (by
     intro t ht p hp hm
     have ht' : t = gs "alice" := by simpa using ht
     subst ht'
     rw [show parseSender (gs "alice") = some ⟨gs "alice", [], []⟩ from by decide] at hp
     obtain rfl : (⟨gs "alice", [], []⟩ : Pfx) = p := Option.some.inj hp
     exact ⟨0, ⟨⟨gs "alice", [], []⟩, false, false⟩, by decide, by decide, rfl⟩)⟩

/-! ## C9: an error return leaves the observable session state intact. -/

/-- The state components the claim names: users, channels, batch
accumulators, enabled capabilities and the feature-table fields. -/
def FrameEq (s s' : Session) : Prop :=
  s'.users = s.users ∧ s'.heap = s.heap ∧ s'.channels = s.channels ∧
  s'.chBatches = s.chBatches ∧ s'.targetsBatchID = s.targetsBatchID ∧
  s'.targetsBatch = s.targetsBatch ∧ s'.searchBatchID = s.searchBatchID ∧
  s'.searchBatch = s.searchBatch ∧ s'.enabledCaps = s.enabledCaps ∧
  s'.casemap = s.casemap ∧ s'.chanmodes = s.chanmodes ∧
  s'.chantypes = s.chantypes ∧ s'.linelen = s.linelen ∧
  s'.historyLimit = s.historyLimit ∧ s'.prefixSymbols = s.prefixSymbols ∧
  s'.prefixModes = s.prefixModes ∧ s'.monitor = s.monitor ∧ s'.netID = s.netID

theorem frameEq_refl (s : Session) : FrameEq s s := by
  simp [FrameEq]

theorem closeS_frame (s : Session) : FrameEq s s.closeS := by
  unfold Session.closeS
  split
  · exact frameEq_refl s
  · simp [FrameEq]

theorem caseAuthenticate_frame (env : Env) (s : Session) (msg : Msg) (e : GoErr)
    (h : (caseAuthenticate env s msg).2.2 = HOut.errOut e) :
    FrameEq s (caseAuthenticate env s msg).1 := by
  unfold caseAuthenticate at h ⊢
  try dsimp only at h ⊢
  repeat' split at h
  all_goals solve
    | exact HOut.noConfusion h
    | exact frameEq_refl s
    | simp_all [FrameEq, typingsDone]
    | simp_all [FrameEq, typingsDone, apply_ite]

theorem caseLoggedin_frame (s : Session) (msg : Msg) (e : GoErr)
    (h : (caseLoggedin s msg).2.2 = HOut.errOut e) :
    FrameEq s (caseLoggedin s msg).1 := by
  unfold caseLoggedin at h ⊢
  try dsimp only at h ⊢
  repeat' split at h
  all_goals solve
    | exact HOut.noConfusion h
    | exact frameEq_refl s
    | simp_all [FrameEq, typingsDone]
    | simp_all [FrameEq, typingsDone, apply_ite]

theorem caseSaslFail_frame (s : Session) (msg : Msg) (e : GoErr)
    (h : (caseSaslFail s msg).2.2 = HOut.errOut e) :
    FrameEq s (caseSaslFail s msg).1 := by
  unfold caseSaslFail at h ⊢
  try dsimp only at h ⊢
  repeat' split at h
  all_goals solve
    | exact HOut.noConfusion h
    | exact frameEq_refl s
    | simp_all [FrameEq, typingsDone]
    | simp_all [FrameEq, typingsDone, apply_ite]

theorem caseWelcome_frame (s : Session) (msg : Msg) (e : GoErr)
    (h : (caseWelcome s msg).2.2 = HOut.errOut e) :
    FrameEq s (caseWelcome s msg).1 := by
  unfold caseWelcome at h ⊢
  try dsimp only at h ⊢
  repeat' split at h
  all_goals solve
    | exact HOut.noConfusion h
    | exact frameEq_refl s
    | simp_all [FrameEq, typingsDone]
    | simp_all [FrameEq, typingsDone, apply_ite]

theorem caseIsupport_frame (s : Session) (msg : Msg) (e : GoErr)
    (h : (caseIsupport s msg).2.2 = HOut.errOut e) :
    FrameEq s (caseIsupport s msg).1 := by
  unfold caseIsupport at h ⊢
  try dsimp only at h ⊢
  repeat' split at h
  all_goals solve
    | exact HOut.noConfusion h
    | exact frameEq_refl s
    | simp_all [FrameEq, typingsDone]
    | simp_all [FrameEq, typingsDone, apply_ite]

theorem caseWhoreply_frame (s : Session) (msg : Msg) (e : GoErr)
    (h : (caseWhoreply s msg).2.2 = HOut.errOut e) :
    FrameEq s (caseWhoreply s msg).1 := by
  unfold caseWhoreply at h ⊢
  try dsimp only at h ⊢
  repeat' split at h
  all_goals solve
    | exact HOut.noConfusion h
    | exact frameEq_refl s
    | simp_all [FrameEq, typingsDone]
    | simp_all [FrameEq, typingsDone, apply_ite]

theorem caseCap_frame (env : Env) (s : Session) (msg : Msg) (e : GoErr)
    (h : (caseCap env s msg).2.2 = HOut.errOut e) :
    FrameEq s (caseCap env s msg).1 := by
  unfold caseCap at h ⊢
  try dsimp only at h ⊢
  repeat' split at h
  all_goals solve
    | exact HOut.noConfusion h
    | exact frameEq_refl s
    | simp_all [FrameEq, typingsDone]
    | simp_all [FrameEq, typingsDone, apply_ite]

theorem caseJoin_frame (s : Session) (msg : Msg) (pb : Bool) (now : Int) (e : GoErr)
    (h : (caseJoin s msg pb now).2.2 = HOut.errOut e) :
    FrameEq s (caseJoin s msg pb now).1 := by
  unfold caseJoin at h ⊢
  try dsimp only at h ⊢
  repeat' split at h
  all_goals solve
    | exact HOut.noConfusion h
    | exact frameEq_refl s
    | simp_all [FrameEq, typingsDone]
    | simp_all [FrameEq, typingsDone, apply_ite]

theorem casePart_frame (s : Session) (msg : Msg) (pb : Bool) (now : Int) (e : GoErr)
    (h : (casePart s msg pb now).2.2 = HOut.errOut e) :
    FrameEq s (casePart s msg pb now).1 := by
  unfold casePart at h ⊢
  try dsimp only at h ⊢
  repeat' split at h
  all_goals solve
    | exact HOut.noConfusion h
    | exact frameEq_refl s
    | simp_all [FrameEq, typingsDone]
    | simp_all [FrameEq, typingsDone, apply_ite]

theorem caseKick_frame (s : Session) (msg : Msg) (pb : Bool) (now : Int) (e : GoErr)
    (h : (caseKick s msg pb now).2.2 = HOut.errOut e) :
    FrameEq s (caseKick s msg pb now).1 := by
  unfold caseKick at h ⊢
  try dsimp only at h ⊢
  repeat' split at h
  all_goals solve
    | exact HOut.noConfusion h
    | exact frameEq_refl s
    | simp_all [FrameEq, typingsDone]
    | simp_all [FrameEq, typingsDone, apply_ite]

theorem caseQuit_frame (s : Session) (msg : Msg) (pb : Bool) (now : Int) (e : GoErr)
    (h : (caseQuit s msg pb now).2.2 = HOut.errOut e) :
    FrameEq s (caseQuit s msg pb now).1 := by
  unfold caseQuit at h ⊢
  try dsimp only at h ⊢
  repeat' split at h
  all_goals solve
    | exact HOut.noConfusion h
    | exact frameEq_refl s
    | simp_all [FrameEq, typingsDone]
    | simp_all [FrameEq, typingsDone, apply_ite]

theorem caseMon_frame (off : Bool) (s : Session) (msg : Msg) (e : GoErr)
    (h : (caseMon off s msg).2.2 = HOut.errOut e) :
    FrameEq s (caseMon off s msg).1 := by
  unfold caseMon at h ⊢
  try dsimp only at h ⊢
  repeat' split at h
  all_goals solve
    | exact HOut.noConfusion h
    | exact frameEq_refl s
    | simp_all [FrameEq, typingsDone]
    | simp_all [FrameEq, typingsDone, apply_ite]

theorem caseNamreply_frame (s : Session) (msg : Msg) (e : GoErr)
    (h : (caseNamreply s msg).2.2 = HOut.errOut e) :
    FrameEq s (caseNamreply s msg).1 := by
  unfold caseNamreply at h ⊢
  try dsimp only at h ⊢
  repeat' split at h
  all_goals solve
    | exact HOut.noConfusion h
    | exact frameEq_refl s
    | simp_all [FrameEq, typingsDone]
    | simp_all [FrameEq, typingsDone, apply_ite]

theorem caseEndofnames_frame (s : Session) (msg : Msg) (now : Int) (e : GoErr)
    (h : (caseEndofnames s msg now).2.2 = HOut.errOut e) :
    FrameEq s (caseEndofnames s msg now).1 := by
  unfold caseEndofnames at h ⊢
  try dsimp only at h ⊢
  repeat' split at h
  all_goals solve
    | exact HOut.noConfusion h
    | exact frameEq_refl s
    | simp_all [FrameEq, typingsDone]
    | simp_all [FrameEq, typingsDone, apply_ite]

theorem caseRplTopic_frame (s : Session) (msg : Msg) (e : GoErr)
    (h : (caseRplTopic s msg).2.2 = HOut.errOut e) :
    FrameEq s (caseRplTopic s msg).1 := by
  unfold caseRplTopic at h ⊢
  try dsimp only at h ⊢
  repeat' split at h
  all_goals solve
    | exact HOut.noConfusion h
    | exact frameEq_refl s
    | simp_all [FrameEq, typingsDone]
    | simp_all [FrameEq, typingsDone, apply_ite]

theorem caseTopicWhoTime_frame (s : Session) (msg : Msg) (e : GoErr)
    (h : (caseTopicWhoTime s msg).2.2 = HOut.errOut e) :
    FrameEq s (caseTopicWhoTime s msg).1 := by
  unfold caseTopicWhoTime at h ⊢
  try dsimp only at h ⊢
  repeat' split at h
  all_goals solve
    | exact HOut.noConfusion h
    | exact frameEq_refl s
    | simp_all [FrameEq, typingsDone]
    | simp_all [FrameEq, typingsDone, apply_ite]

theorem caseNotopic_frame (s : Session) (msg : Msg) (e : GoErr)
    (h : (caseNotopic s msg).2.2 = HOut.errOut e) :
    FrameEq s (caseNotopic s msg).1 := by
  unfold caseNotopic at h ⊢
  try dsimp only at h ⊢
  repeat' split at h
  all_goals solve
    | exact HOut.noConfusion h
    | exact frameEq_refl s
    | simp_all [FrameEq, typingsDone]
    | simp_all [FrameEq, typingsDone, apply_ite]

theorem caseTopicCmd_frame (s : Session) (msg : Msg) (pb : Bool) (now : Int) (e : GoErr)
    (h : (caseTopicCmd s msg pb now).2.2 = HOut.errOut e) :
    FrameEq s (caseTopicCmd s msg pb now).1 := by
  unfold caseTopicCmd at h ⊢
  try dsimp only at h ⊢
  repeat' split at h
  all_goals solve
    | exact HOut.noConfusion h
    | exact frameEq_refl s
    | simp_all [FrameEq, typingsDone]
    | simp_all [FrameEq, typingsDone, apply_ite]

theorem caseMode_frame (s : Session) (msg : Msg) (pb : Bool) (now : Int) (e : GoErr)
    (h : (caseMode s msg pb now).2.2 = HOut.errOut e) :
    FrameEq s (caseMode s msg pb now).1 := by
  unfold caseMode at h ⊢
  try dsimp only at h ⊢
  repeat' split at h
  all_goals solve
    | exact HOut.noConfusion h
    | exact frameEq_refl s
    | simp_all [FrameEq, typingsDone]
    | simp_all [FrameEq, typingsDone, apply_ite]

theorem caseInvite_frame (s : Session) (msg : Msg) (e : GoErr)
    (h : (caseInvite s msg).2.2 = HOut.errOut e) :
    FrameEq s (caseInvite s msg).1 := by
  unfold caseInvite at h ⊢
  try dsimp only at h ⊢
  repeat' split at h
  all_goals solve
    | exact HOut.noConfusion h
    | exact frameEq_refl s
    | simp_all [FrameEq, typingsDone]
    | simp_all [FrameEq, typingsDone, apply_ite]

theorem caseInviting_frame (s : Session) (msg : Msg) (e : GoErr)
    (h : (caseInviting s msg).2.2 = HOut.errOut e) :
    FrameEq s (caseInviting s msg).1 := by
  unfold caseInviting at h ⊢
  try dsimp only at h ⊢
  repeat' split at h
  all_goals solve
    | exact HOut.noConfusion h
    | exact frameEq_refl s
    | simp_all [FrameEq, typingsDone]
    | simp_all [FrameEq, typingsDone, apply_ite]

theorem caseAway_frame (s : Session) (msg : Msg) (e : GoErr)
    (h : (caseAway s msg).2.2 = HOut.errOut e) :
    FrameEq s (caseAway s msg).1 := by
  unfold caseAway at h ⊢
  try dsimp only at h ⊢
  repeat' split at h
  all_goals solve
    | exact HOut.noConfusion h
    | exact frameEq_refl s
    | simp_all [FrameEq, typingsDone]
    | simp_all [FrameEq, typingsDone, apply_ite]

theorem casePrivmsgNotice_frame (s : Session) (msg : Msg) (pb : Bool) (now : Int) (e : GoErr)
    (h : (casePrivmsgNotice s msg pb now).2.2 = HOut.errOut e) :
    FrameEq s (casePrivmsgNotice s msg pb now).1 := by
  unfold casePrivmsgNotice at h ⊢
  try dsimp only at h ⊢
  repeat' split at h
  all_goals solve
    | exact HOut.noConfusion h
    | exact frameEq_refl s
    | simp_all [FrameEq, typingsDone]
    | simp_all [FrameEq, typingsDone, apply_ite]

theorem caseTagmsg_frame (s : Session) (msg : Msg) (pb : Bool) (e : GoErr)
    (h : (caseTagmsg s msg pb).2.2 = HOut.errOut e) :
    FrameEq s (caseTagmsg s msg pb).1 := by
  unfold caseTagmsg at h ⊢
  try dsimp only at h ⊢
  repeat' split at h
  all_goals solve
    | exact HOut.noConfusion h
    | exact frameEq_refl s
    | simp_all [FrameEq, typingsDone]
    | simp_all [FrameEq, typingsDone, apply_ite]

theorem caseBatch_frame (s : Session) (msg : Msg) (e : GoErr)
    (h : (caseBatch s msg).2.2 = HOut.errOut e) :
    FrameEq s (caseBatch s msg).1 := by
  unfold caseBatch at h ⊢
  try dsimp only at h ⊢
  repeat' split at h
  all_goals solve
    | exact HOut.noConfusion h
    | exact frameEq_refl s
    | simp_all [FrameEq, typingsDone]
    | simp_all [FrameEq, typingsDone, apply_ite]

theorem caseNick_frame (s : Session) (msg : Msg) (pb : Bool) (now : Int) (e : GoErr)
    (h : (caseNick s msg pb now).2.2 = HOut.errOut e) :
    FrameEq s (caseNick s msg pb now).1 := by
  unfold caseNick at h ⊢
  try dsimp only at h ⊢
  repeat' split at h
  all_goals solve
    | exact HOut.noConfusion h
    | exact frameEq_refl s
    | simp_all [FrameEq, typingsDone]
    | simp_all [FrameEq, typingsDone, apply_ite]

theorem caseRead_frame (s : Session) (msg : Msg) (e : GoErr)
    (h : (caseRead s msg).2.2 = HOut.errOut e) :
    FrameEq s (caseRead s msg).1 := by
  unfold caseRead at h ⊢
  try dsimp only at h ⊢
  repeat' split at h
  all_goals solve
    | exact HOut.noConfusion h
    | exact frameEq_refl s
    | simp_all [FrameEq, typingsDone]
    | simp_all [FrameEq, typingsDone, apply_ite]

theorem caseBouncer_frame (s : Session) (msg : Msg) (e : GoErr)
    (h : (caseBouncer s msg).2.2 = HOut.errOut e) :
    FrameEq s (caseBouncer s msg).1 := by
  unfold caseBouncer at h ⊢
  try dsimp only at h ⊢
  repeat' split at h
  all_goals solve
    | exact HOut.noConfusion h
    | exact frameEq_refl s
    | simp_all [FrameEq, typingsDone]
    | simp_all [FrameEq, typingsDone, apply_ite]

theorem casePing_frame (s : Session) (msg : Msg) (e : GoErr)
    (h : (casePing s msg).2.2 = HOut.errOut e) :
    FrameEq s (casePing s msg).1 := by
  unfold casePing at h ⊢
  try dsimp only at h ⊢
  repeat' split at h
  all_goals solve
    | exact HOut.noConfusion h
    | exact frameEq_refl s
    | simp_all [FrameEq, typingsDone]
    | simp_all [FrameEq, typingsDone, apply_ite]

theorem caseFailWarnNote_frame (s : Session) (msg : Msg) (e : GoErr)
    (h : (caseFailWarnNote s msg).2.2 = HOut.errOut e) :
    FrameEq s (caseFailWarnNote s msg).1 := by
  unfold caseFailWarnNote at h ⊢
  try dsimp only at h ⊢
  repeat' split at h
  all_goals solve
    | exact HOut.noConfusion h
    | exact frameEq_refl s
    | simp_all [FrameEq, typingsDone]
    | simp_all [FrameEq, typingsDone, apply_ite]

theorem caseDefault_frame (s : Session) (msg : Msg) (e : GoErr)
    (h : (caseDefault s msg).2.2 = HOut.errOut e) :
    FrameEq s (caseDefault s msg).1 := by
  unfold caseDefault at h ⊢
  try dsimp only at h ⊢
  repeat' split at h
  all_goals solve
    | exact HOut.noConfusion h
    | exact frameEq_refl s
    | simp_all [FrameEq, typingsDone]
    | simp_all [FrameEq, typingsDone, apply_ite]

set_option maxHeartbeats 3200000 in
/-- C9: whenever `handleMessageRegistered` returns an error (too few
positional parameters, or a missing required sender prefix), the session
components the specification names — users, channels, batch accumulators,
enabled capabilities and every feature field — are exactly as before the
call: every handler parses before it mutates. -/
theorem handler_error_frame (env : Env) (s : Session) (msg : Msg)
    (playback : Bool) (now : Int) (e : GoErr)
    (h : (handleMessageRegistered env s msg playback now).2.2 = HOut.errOut e) :
    FrameEq s (handleMessageRegistered env s msg playback now).1 := by
  obtain ⟨r, hr⟩ : ∃ r, handleMessageRegistered env s msg playback now = r :=
    ⟨_, rfl⟩
  rw [hr] at h ⊢
  unfold handleMessageRegistered at hr
  by_cases h1 : msg.command = gs "AUTHENTICATE"
  · rw [if_pos h1] at hr; subst hr; exact caseAuthenticate_frame env s msg e h
  rw [if_neg h1] at hr
  by_cases h2 : msg.command = gs "900"
  · rw [if_pos h2] at hr; subst hr; exact caseLoggedin_frame s msg e h
  rw [if_neg h2] at hr
  by_cases h3 : msg.command = gs "902" ∨ msg.command = gs "904" ∨ msg.command = gs "905" ∨ msg.command = gs "906" ∨ msg.command = gs "907" ∨ msg.command = gs "908"
  · rw [if_pos h3] at hr; subst hr; exact caseSaslFail_frame s msg e h
  rw [if_neg h3] at hr
  by_cases h4 : msg.command = gs "001"
  · rw [if_pos h4] at hr; subst hr; exact caseWelcome_frame s msg e h
  rw [if_neg h4] at hr
  by_cases h5 : msg.command = gs "005"
  · rw [if_pos h5] at hr; subst hr; exact caseIsupport_frame s msg e h
  rw [if_neg h5] at hr
  by_cases h6 : msg.command = gs "352"
  · rw [if_pos h6] at hr; subst hr; exact caseWhoreply_frame s msg e h
  rw [if_neg h6] at hr
  by_cases h7 : msg.command = gs "315"
  · rw [if_pos h7] at hr; subst hr; exact HOut.noConfusion h
  rw [if_neg h7] at hr
  by_cases h8 : msg.command = gs "CAP"
  · rw [if_pos h8] at hr; subst hr; exact caseCap_frame env s msg e h
  rw [if_neg h8] at hr
  by_cases h9 : msg.command = gs "JOIN"
  · rw [if_pos h9] at hr; subst hr; exact caseJoin_frame s msg playback now e h
  rw [if_neg h9] at hr
  by_cases h10 : msg.command = gs "PART"
  · rw [if_pos h10] at hr; subst hr; exact casePart_frame s msg playback now e h
  rw [if_neg h10] at hr
  by_cases h11 : msg.command = gs "KICK"
  · rw [if_pos h11] at hr; subst hr; exact caseKick_frame s msg playback now e h
  rw [if_neg h11] at hr
  by_cases h12 : msg.command = gs "QUIT"
  · rw [if_pos h12] at hr; subst hr; exact caseQuit_frame s msg playback now e h
  rw [if_neg h12] at hr
  by_cases h13 : msg.command = gs "730"
  · rw [if_pos h13] at hr; subst hr; exact caseMon_frame false s msg e h
  rw [if_neg h13] at hr
  by_cases h14 : msg.command = gs "731"
  · rw [if_pos h14] at hr; subst hr; exact caseMon_frame true s msg e h
  rw [if_neg h14] at hr
  by_cases h15 : msg.command = gs "353"
  · rw [if_pos h15] at hr; subst hr; exact caseNamreply_frame s msg e h
  rw [if_neg h15] at hr
  by_cases h16 : msg.command = gs "366"
  · rw [if_pos h16] at hr; subst hr; exact caseEndofnames_frame s msg now e h
  rw [if_neg h16] at hr
  by_cases h17 : msg.command = gs "332"
  · rw [if_pos h17] at hr; subst hr; exact caseRplTopic_frame s msg e h
  rw [if_neg h17] at hr
  by_cases h18 : msg.command = gs "333"
  · rw [if_pos h18] at hr; subst hr; exact caseTopicWhoTime_frame s msg e h
  rw [if_neg h18] at hr
  by_cases h19 : msg.command = gs "331"
  · rw [if_pos h19] at hr; subst hr; exact caseNotopic_frame s msg e h
  rw [if_neg h19] at hr
  by_cases h20 : msg.command = gs "TOPIC"
  · rw [if_pos h20] at hr; subst hr; exact caseTopicCmd_frame s msg playback now e h
  rw [if_neg h20] at hr
  by_cases h21 : msg.command = gs "MODE"
  · rw [if_pos h21] at hr; subst hr; exact caseMode_frame s msg playback now e h
  rw [if_neg h21] at hr
  by_cases h22 : msg.command = gs "INVITE"
  · rw [if_pos h22] at hr; subst hr; exact caseInvite_frame s msg e h
  rw [if_neg h22] at hr
  by_cases h23 : msg.command = gs "341"
  · rw [if_pos h23] at hr; subst hr; exact caseInviting_frame s msg e h
  rw [if_neg h23] at hr
  by_cases h24 : msg.command = gs "AWAY"
  · rw [if_pos h24] at hr; subst hr; exact caseAway_frame s msg e h
  rw [if_neg h24] at hr
  by_cases h25 : msg.command = gs "PRIVMSG" ∨ msg.command = gs "NOTICE"
  · rw [if_pos h25] at hr; subst hr; exact casePrivmsgNotice_frame s msg playback now e h
  rw [if_neg h25] at hr
  by_cases h26 : msg.command = gs "TAGMSG"
  · rw [if_pos h26] at hr; subst hr; exact caseTagmsg_frame s msg playback e h
  rw [if_neg h26] at hr
  by_cases h27 : msg.command = gs "BATCH"
  · rw [if_pos h27] at hr; subst hr; exact caseBatch_frame s msg e h
  rw [if_neg h27] at hr
  by_cases h28 : msg.command = gs "NICK"
  · rw [if_pos h28] at hr; subst hr; exact caseNick_frame s msg playback now e h
  rw [if_neg h28] at hr
  by_cases h29 : msg.command = gs "READ"
  · rw [if_pos h29] at hr; subst hr; exact caseRead_frame s msg e h
  rw [if_neg h29] at hr
  by_cases h30 : msg.command = gs "BOUNCER"
  · rw [if_pos h30] at hr; subst hr; exact caseBouncer_frame s msg e h
  rw [if_neg h30] at hr
  by_cases h31 : msg.command = gs "PING"
  · rw [if_pos h31] at hr; subst hr; exact casePing_frame s msg e h
  rw [if_neg h31] at hr
  by_cases h32 : msg.command = gs "ERROR"
  · rw [if_pos h32] at hr; subst hr; exact closeS_frame s
  rw [if_neg h32] at hr
  by_cases h33 : msg.command = gs "FAIL" ∨ msg.command = gs "WARN" ∨ msg.command = gs "NOTE"
  · rw [if_pos h33] at hr; subst hr; exact caseFailWarnNote_frame s msg e h
  rw [if_neg h33] at hr
  by_cases h34 : msg.command = gs "734"
  · rw [if_pos h34] at hr; subst hr; exact HOut.noConfusion h
  rw [if_neg h34] at hr
  subst hr
  exact caseDefault_frame s msg e h

/-- Witness for C9: a JOIN with no sender prefix errors and leaves the
concrete default session's components unchanged. -/
theorem handler_error_frame_witness :
    FrameEq sessionW
      (handleMessageRegistered envW sessionW
        ⟨[], none, gs "JOIN", [gs "#c"], none⟩ false 0).1 :=
  handler_error_frame envW sessionW ⟨[], none, gs "JOIN", [gs "#c"], none⟩
    false 0 .missingSender rfl

set_option maxRecDepth 4000 in
/-- ASCII bytes are rune starts. -/
theorem runeStart_ascii : ∀ b, b < 128 → runeStart b = true := by decide

set_option maxRecDepth 8000 in
/-- UTF-8 lead bytes are rune starts. -/
theorem runeStart_lead : ∀ b, b < 248 → 192 ≤ b → runeStart b = true := by decide

set_option maxRecDepth 8000 in
/-- Continuation bytes are not rune starts. -/
theorem runeStart_cont : ∀ b, b < 192 → 128 ≤ b → runeStart b = false := by decide

theorem runeStart_of_isCont (b : Nat) (h : isCont b = true) :
    runeStart b = false := by
  simp only [isCont, Bool.and_eq_true, decide_eq_true_eq] at h
  exact runeStart_cont b h.2 h.1

/-- Validity in the inductive character-list sense implies the executable
check. -/
theorem valid_of_utf8V (s : GoStr) (h : Utf8V s) : utf8Valid s = true := by
  induction h with
  | nil => rfl
  | cons c rest hc _ ih =>
    cases hc with
    | one b hb =>
      show utf8ValidK 0 (b :: rest) = true
      rw [utf8ValidK, if_pos hb]
      exact ih
    | two b c1 h1 h2 hc1 =>
      show utf8ValidK 0 (b :: c1 :: rest) = true
      simp only [utf8ValidK]
      rw [if_neg (by omega : ¬ b < 128), if_pos (⟨h1, h2⟩ : 192 ≤ b ∧ b < 224)]
      simp only [hc1, Bool.true_and]
      exact ih
    | three b c1 c2 h1 h2 hc1 hc2 =>
      show utf8ValidK 0 (b :: c1 :: c2 :: rest) = true
      simp only [utf8ValidK]
      rw [if_neg (by omega : ¬ b < 128),
        if_neg (by omega : ¬ (192 ≤ b ∧ b < 224)),
        if_pos (⟨h1, h2⟩ : 224 ≤ b ∧ b < 240)]
      simp only [hc1, hc2, Bool.true_and]
      exact ih
    | four b c1 c2 c3 h1 h2 hc1 hc2 hc3 =>
      show utf8ValidK 0 (b :: c1 :: c2 :: c3 :: rest) = true
      simp only [utf8ValidK]
      rw [if_neg (by omega : ¬ b < 128),
        if_neg (by omega : ¬ (192 ≤ b ∧ b < 224)),
        if_neg (by omega : ¬ (224 ≤ b ∧ b < 240)),
        if_pos (⟨h1, h2⟩ : 240 ≤ b ∧ b < 248)]
      simp only [hc1, hc2, hc3, Bool.true_and]
      exact ih

/-- The executable check implies validity in the inductive sense. -/
theorem utf8V_of_valid : ∀ s : GoStr, utf8Valid s = true → Utf8V s
  | [], _ => Utf8V.nil
  | b :: rest, h => by
    unfold utf8Valid at h
    simp only [utf8ValidK] at h
    split_ifs at h with h1 h2 h3 h4
    · exact Utf8V.cons [b] rest (IsChar.one b h1) (utf8V_of_valid rest h)
    · cases rest with
      | nil => simp [utf8ValidK] at h
      | cons c1 rest2 =>
        simp only [utf8ValidK, Bool.and_eq_true] at h
        exact Utf8V.cons [b, c1] rest2
          (IsChar.two b c1 h2.1 h2.2 h.1)
          (utf8V_of_valid rest2 h.2)
    · cases rest with
      | nil => simp [utf8ValidK] at h
      | cons c1 rest2 =>
        cases rest2 with
        | nil => simp [utf8ValidK] at h
        | cons c2 rest3 =>
          simp only [utf8ValidK, Bool.and_eq_true] at h
          exact Utf8V.cons [b, c1, c2] rest3
            (IsChar.three b c1 c2 h3.1 h3.2 h.1 h.2.1)
            (utf8V_of_valid rest3 h.2.2)
    · cases rest with
      | nil => simp [utf8ValidK] at h
      | cons c1 rest2 =>
        cases rest2 with
        | nil => simp [utf8ValidK] at h
        | cons c2 rest3 =>
          cases rest3 with
          | nil => simp [utf8ValidK] at h
          | cons c3 rest4 =>
            simp only [utf8ValidK, Bool.and_eq_true] at h
            exact Utf8V.cons [b, c1, c2, c3] rest4
              (IsChar.four b c1 c2 c3 h4.1 h4.2 h.1 h.2.1 h.2.2.1)
              (utf8V_of_valid rest4 h.2.2.2)
termination_by s => s.length

/-- A well-formed character is one to four bytes long. -/
theorem isChar_length (c : GoStr) (hc : IsChar c) :
    1 ≤ c.length ∧ c.length ≤ 4 := by
  cases hc <;> simp

/-- The first byte of a well-formed character is a rune start. -/
theorem isChar_head (c : GoStr) (hc : IsChar c) :
    ∃ b, c.get? 0 = some b ∧ runeStart b = true := by
  cases hc with
  | one b hb => exact ⟨b, rfl, runeStart_ascii b hb⟩
  | two b c1 h1 h2 _ => exact ⟨b, rfl, runeStart_lead b (by omega) (by omega)⟩
  | three b c1 c2 h1 h2 _ _ =>
    exact ⟨b, rfl, runeStart_lead b (by omega) (by omega)⟩
  | four b c1 c2 c3 h1 h2 _ _ _ =>
    exact ⟨b, rfl, runeStart_lead b (by omega) (by omega)⟩

/-- Every byte of a well-formed character after the first is a continuation
byte, hence not a rune start. -/
theorem isChar_tail_cont (c : GoStr) (hc : IsChar c) :
    ∀ p, 0 < p → p < c.length → ∃ b, c.get? p = some b ∧ runeStart b = false := by
  cases hc with
  | one b hb => intro p h1 h2; simp at h2; omega
  | two b c1 _ _ hc1 =>
    intro p h1 h2
    simp at h2
    have hp : p = 1 := by omega
    subst hp
    exact ⟨c1, rfl, runeStart_of_isCont c1 hc1⟩
  | three b c1 c2 _ _ hc1 hc2 =>
    intro p h1 h2
    simp at h2
    have hp : p = 1 ∨ p = 2 := by omega
    rcases hp with rfl | rfl
    · exact ⟨c1, rfl, runeStart_of_isCont c1 hc1⟩
    · exact ⟨c2, rfl, runeStart_of_isCont c2 hc2⟩
  | four b c1 c2 c3 _ _ hc1 hc2 hc3 =>
    intro p h1 h2
    simp at h2
    have hp : p = 1 ∨ p = 2 ∨ p = 3 := by omega
    rcases hp with rfl | rfl | rfl
    · exact ⟨c1, rfl, runeStart_of_isCont c1 hc1⟩
    · exact ⟨c2, rfl, runeStart_of_isCont c2 hc2⟩
    · exact ⟨c3, rfl, runeStart_of_isCont c3 hc3⟩

/-- In a valid string, every position `q` is within three bytes of the start
`j` of the character containing it; `j` is a rune start, everything in
`(j, q]` is a continuation byte, and the string splits cleanly at `j`. -/
theorem utf8V_scan (s : GoStr) (h : Utf8V s) :
    ∀ q : Nat, q < s.length →
      ∃ j : Nat, j ≤ q ∧ q - j ≤ 3 ∧
        (∃ b, s.get? j = some b ∧ runeStart b = true) ∧
        (∀ i, j < i → i ≤ q → ∃ b, s.get? i = some b ∧ runeStart b = false) ∧
        Utf8V (s.take j) ∧ Utf8V (s.drop j) := by
  induction h with
  | nil => intro q hq; simp at hq
  | cons c rest hc hrest ih =>
    intro q hq
    by_cases hqL : q < c.length
    · refine ⟨0, by omega, ?_, ?_, ?_, ?_, ?_⟩
      · have := isChar_length c hc; omega
      · obtain ⟨b, hb, hrs⟩ := isChar_head c hc
        exact ⟨b, by rw [List.get?_append (by have := isChar_length c hc; omega)]; exact hb, hrs⟩
      · intro i h1 h2
        obtain ⟨b, hb, hrs⟩ := isChar_tail_cont c hc i h1 (by omega)
        exact ⟨b, by rw [List.get?_append (by omega)]; exact hb, hrs⟩
      · exact Utf8V.nil
      · exact Utf8V.cons c rest hc hrest
    · push_neg at hqL
      have hq' : q - c.length < rest.length := by
        rw [List.length_append] at hq; omega
      obtain ⟨j, h1, h2, ⟨b, hb, hrs⟩, hcont, htake, hdrop⟩ := ih (q - c.length) hq'
      refine ⟨c.length + j, by omega, by omega, ?_, ?_, ?_, ?_⟩
      · refine ⟨b, ?_, hrs⟩
        rw [List.get?_append_right (by omega)]
        simpa using hb
      · intro i hi1 hi2
        obtain ⟨b', hb', hrs'⟩ := hcont (i - c.length) (by omega) (by omega)
        refine ⟨b', ?_, hrs'⟩
        rw [List.get?_append_right (by omega)]
        exact hb'
      · rw [List.take_append_eq_append_take,
          List.take_all_of_le (by omega : c.length ≤ c.length + j)]
        have : c.length + j - c.length = j := by omega
        rw [this]
        exact Utf8V.cons c (rest.take j) hc htake
      · rw [List.drop_append_eq_append_drop,
          List.drop_eq_nil_of_le (by omega : c.length ≤ c.length + j)]
        have : c.length + j - c.length = j := by omega
        rw [this]
        simpa using hdrop

/-- The inner scan of `splitChunks` stops exactly at the rune start `j`
when all bytes strictly between `j` and the start index are continuation
bytes.  Fuel only needs to cover the distance. -/
theorem splitIdxLoop_stops (s : GoStr) (min : Int) :
    ∀ (fuel : Nat) (i : Int) (j : Nat),
      (j : Int) ≤ i → i - (j : Int) < (fuel : Int) → min ≤ (j : Int) →
      (∃ b, s.get? j = some b ∧ runeStart b = true) →
      (∀ k : Nat, j < k → (k : Int) ≤ i → ∃ b, s.get? k = some b ∧ runeStart b = false) →
      splitIdxLoop s min fuel i = .ok (j : Int) := by
  intro fuel
  induction fuel with
  | zero => intro i j h1 h2 _ _ _; exact absurd h2 (by push_neg; omega)
  | succ fuel ih =>
    intro i j h1 h2 hmin hj hcont
    unfold splitIdxLoop
    rw [if_pos (le_trans hmin h1), if_neg (by omega : ¬ i < 0)]
    by_cases hij : i = (j : Int)
    · subst hij
      obtain ⟨b, hb, hrs⟩ := hj
      rw [show ((j : Int)).toNat = j by omega, hb]
      simp [hrs]
    · have hji : (j : Int) < i := lt_of_le_of_ne h1 (Ne.symm hij)
      obtain ⟨b, hb, hrs⟩ := hcont i.toNat (by omega) (by omega)
      rw [hb]
      simp only [hrs]
      simp only [Bool.false_eq_true, if_false]
      exact ih (i - 1) j (by omega) (by omega) hmin hj
        (fun k hk1 hk2 => hcont k hk1 (by omega))

/-- The outer loop of `splitChunks` on a valid string with chunk limit at
least 4: terminates with chunks of at most `m` bytes, each valid UTF-8,
concatenating to the input. -/
theorem splitChunksLoop_utf8 (m : Nat) (h4 : 4 ≤ m) :
    ∀ (fuel : Nat) (s : GoStr), Utf8V s → s.length < fuel →
      ∃ chunks, splitChunksLoop (m : Int) fuel s = SplitRes.ok chunks ∧
        chunks.join = s ∧ ∀ c ∈ chunks, c.length ≤ m ∧ Utf8V c := by
  intro fuel
  induction fuel with
  | zero => intro s _ h; omega
  | succ fuel ih =>
    intro s hv hlen
    rw [splitChunksLoop]
    by_cases hlt : (m : Int) < (s.length : Int)
    · rw [if_pos hlt]
      have hq : m < s.length := by exact_mod_cast hlt
      obtain ⟨j, hjq, hd, hj, hcont, htake, hdrop⟩ := utf8V_scan s hv m hq
      have hscan : splitIdxLoop s ((m : Int) - 4) 8 (m : Int) = .ok (j : Int) :=
        splitIdxLoop_stops s ((m : Int) - 4) 8 (m : Int) j (by omega) (by omega)
          (by omega) hj (fun k hk1 hk2 => hcont k hk1 (by omega))
      rw [hscan]
      dsimp only
      have hj1 : 1 ≤ j := by omega
      rw [if_neg (by omega : ¬ (j : Int) < 0), if_neg (by
        intro hz
        have : j = 0 := by exact_mod_cast hz
        omega)]
      rw [show ((j : Int)).toNat = j by omega]
      obtain ⟨rest, hrest, hjoin, hall⟩ := ih (s.drop j) hdrop
        (by rw [List.length_drop]; omega)
      rw [hrest]
      refine ⟨s.take j :: rest, rfl, ?_, ?_⟩
      · show List.take j s ++ rest.join = s
        rw [hjoin, List.take_append_drop]
      · intro c hc
        rcases List.mem_cons.mp hc with rfl | hc'
        · exact ⟨by rw [List.length_take]; omega, htake⟩
        · exact hall c hc'
    · rw [if_neg hlt]
      by_cases hne : s.length ≠ 0
      · rw [if_pos hne]
        exact ⟨[s], rfl, by simp, by
          intro c hc
          rw [List.mem_singleton] at hc
          subst hc
          exact ⟨by omega, hv⟩⟩
      · rw [if_neg hne]
        push_neg at hne
        have hs : s = [] := List.length_eq_zero.mp hne
        subst hs
        exact ⟨[], rfl, rfl, by intro c hc; simp at hc⟩

/-- C4 (amended): on every valid UTF-8 input and every limit of at least
four bytes, `splitChunks` terminates with chunks of at most the limit,
concatenating to the input, and every chunk is itself valid UTF-8 (no
boundary falls inside a multi-byte character). -/
theorem splitChunks_utf8_correct (s : GoStr) (M : Int)
    (hval : utf8Valid s = true) (h4 : 4 ≤ M) :
    ∃ chunks, splitChunks s M = SplitRes.ok chunks ∧
      chunks.join = s ∧
      ∀ c ∈ chunks, (c.length : Int) ≤ M ∧ utf8Valid c = true := by
  obtain ⟨m, rfl⟩ : ∃ m : Nat, (m : Int) = M := ⟨M.toNat, by omega⟩
  have h4' : 4 ≤ m := by exact_mod_cast h4
  unfold splitChunks
  rw [if_neg (by omega : ¬ (m : Int) ≤ 0)]
  obtain ⟨chunks, h1, h2, h3⟩ := splitChunksLoop_utf8 m h4' (s.length + 1) s
    (utf8V_of_valid s hval) (by omega)
  exact ⟨chunks, h1, h2, fun c hc =>
    ⟨by exact_mod_cast (h3 c hc).1, valid_of_utf8V c (h3 c hc).2⟩⟩

/-- C4 counterexample: on the valid two-byte UTF-8 string `"é"` with the
positive limit 1, the Go loop cuts an empty chunk forever: `splitChunks`
diverges instead of returning a chunk list. -/
theorem splitChunks_diverges_on_multibyte :
    utf8Valid [195, 169] = true ∧ (0 : Int) < 1 ∧
    splitChunks [195, 169] 1 = SplitRes.diverges := by decide

/-- Witness for C4 at a concrete valid input (`"héllo"` as UTF-8 bytes)
and the concrete limit 4. -/
theorem splitChunks_utf8_correct_witness :
    utf8Valid [104, 195, 169, 108, 108, 111] = true ∧ (4 : Int) ≤ 4 ∧
    (∃ chunks,
      splitChunks [104, 195, 169, 108, 108, 111] 4 = SplitRes.ok chunks ∧
      chunks.join = [104, 195, 169, 108, 108, 111] ∧
      ∀ c ∈ chunks, (c.length : Int) ≤ 4 ∧ utf8Valid c = true) :=
  ⟨by decide, by decide,
    splitChunks_utf8_correct [104, 195, 169, 108, 108, 111] 4
      (by decide) (by decide)⟩

end Senpai
